import Mathlib

/-!
Verification development for the G414 chess analysis engine.

The engine (`engine.js`) and the concurrent analysis coordinator
(`analysis.js`) are shallowly embedded below.  JavaScript numbers are
modelled as exact rationals (`ℚ`), `Math.round` as `⌊x + 1/2⌋` (round
half towards +∞, the ECMAScript behaviour), and the external chess.js
move-generation library is modelled as an oracle: a position is a
finite game tree whose nodes carry the data the engine reads through
the chess.js API (`board()`, `turn()`, `fen()`, `in_check()`,
`moves({verbose:true})`, terminal predicates, legal-move counts).
Mutation of the single `chess` object (`move`/`undo`) is modelled by
explicit state passing of a current-node/undo-stack pair, and the
module-level mutable tables (killers, history, countermoves, move
stack, transposition table, node counter) by an explicit search-state
record threaded through the search functions.
-/

set_option maxHeartbeats 4000000
set_option maxRecDepth 100000

/- Batteries marks the rational-number arithmetic `@[irreducible]`;
restore default reducibility locally so that concrete runs of the
embedded program reduce by `decide`/`rfl`. -/
attribute [local semireducible] Rat.add Rat.mul Rat.sub Rat.inv

namespace Engine

/-- Piece colors, chess.js `'w'` / `'b'`. -/
inductive PColor where
  | w
  | b
deriving DecidableEq, Repr

/-- Piece types, chess.js lowercase letters `p n b r q k`. -/
inductive PType where
  | p
  | n
  | b
  | r
  | q
  | k
deriving DecidableEq, Repr

/-- A piece as returned by `chess.board()`: `{type, color}`. -/
structure Piece where
  color : PColor
  ptype : PType
deriving DecidableEq, Repr

/-- `chess.board()`: 8 rows (row 0 = rank 8), 8 files per row. -/
abbrev Board := List (List (Option Piece))

/-- Cell access `board[r][f]` (out-of-range reads yield `none`,
matching JS `undefined` which the source never produces in range). -/
def boardAt (bd : Board) (r f : ℕ) : Option Piece :=
  (bd.getD r []).getD f none

/-- ECMAScript `Math.round`: round half towards plus infinity. -/
def jsRound (x : ℚ) : ℚ := ((⌊x + 1/2⌋ : ℤ) : ℚ)

/-- `PIECE_VALUE = { p: 100, n: 320, b: 330, r: 500, q: 900, k: 20000 }`. -/
def PIECE_VALUE : PType → ℚ
  | .p => 100
  | .n => 320
  | .b => 330
  | .r => 500
  | .q => 900
  | .k => 20000

/-- Table lookup `tbl[idx]` for the 64-entry PSTs. -/
def zAt (l : List ℤ) (i : ℕ) : ℚ := ((l.getD i 0 : ℤ) : ℚ)

/-- `PST.p`. -/
def PST_P : List ℤ :=
  [ 0,  0,  0,  0,  0,  0,  0,  0,
   50, 50, 50, 50, 50, 50, 50, 50,
   10, 10, 20, 30, 30, 20, 10, 10,
    5,  5, 10, 25, 25, 10,  5,  5,
    0,  0,  0, 20, 20,  0,  0,  0,
    5, -5,-10,  0,  0,-10, -5,  5,
    5, 10, 10,-20,-20, 10, 10,  5,
    0,  0,  0,  0,  0,  0,  0,  0]

/-- `PST.n`. -/
def PST_N : List ℤ :=
  [-50,-40,-30,-30,-30,-30,-40,-50,
   -40,-20,  0,  0,  0,  0,-20,-40,
   -30,  0, 10, 15, 15, 10,  0,-30,
   -30,  5, 15, 20, 20, 15,  5,-30,
   -30,  0, 15, 20, 20, 15,  0,-30,
   -30,  5, 10, 15, 15, 10,  5,-30,
   -40,-20,  0,  5,  5,  0,-20,-40,
   -50,-40,-30,-30,-30,-30,-40,-50]

/-- `PST.b`. -/
def PST_B : List ℤ :=
  [-20,-10,-10,-10,-10,-10,-10,-20,
   -10,  0,  0,  0,  0,  0,  0,-10,
   -10,  0,  5, 10, 10,  5,  0,-10,
   -10,  5,  5, 10, 10,  5,  5,-10,
   -10,  0, 10, 10, 10, 10,  0,-10,
   -10, 10, 10, 10, 10, 10, 10,-10,
   -10,  5,  0,  0,  0,  0,  5,-10,
   -20,-10,-10,-10,-10,-10,-10,-20]

/-- `PST.r`. -/
def PST_R : List ℤ :=
  [  0,  0,  0,  0,  0,  0,  0,  0,
     5, 10, 10, 10, 10, 10, 10,  5,
    -5,  0,  0,  0,  0,  0,  0, -5,
    -5,  0,  0,  0,  0,  0,  0, -5,
    -5,  0,  0,  0,  0,  0,  0, -5,
    -5,  0,  0,  0,  0,  0,  0, -5,
    -5,  0,  0,  0,  0,  0,  0, -5,
     0,  0,  0,  5,  5,  0,  0,  0]

/-- `PST.q`.  Note rows 4, 5 and 6 are not left-right symmetric. -/
def PST_Q : List ℤ :=
  [-20,-10,-10, -5, -5,-10,-10,-20,
   -10,  0,  0,  0,  0,  0,  0,-10,
   -10,  0,  5,  5,  5,  5,  0,-10,
    -5,  0,  5,  5,  5,  5,  0, -5,
     0,  0,  5,  5,  5,  5,  0, -5,
   -10,  5,  5,  5,  5,  5,  0,-10,
   -10,  0,  5,  0,  0,  0,  0,-10,
   -20,-10,-10, -5, -5,-10,-10,-20]

/-- `PST.k` (middle game). -/
def PST_K : List ℤ :=
  [-30,-40,-40,-50,-50,-40,-40,-30,
   -30,-40,-40,-50,-50,-40,-40,-30,
   -30,-40,-40,-50,-50,-40,-40,-30,
   -30,-40,-40,-50,-50,-40,-40,-30,
   -20,-30,-30,-40,-40,-30,-30,-20,
   -10,-20,-20,-20,-20,-20,-20,-10,
    20, 20,  0,  0,  0,  0, 20, 20,
    20, 30, 10,  0,  0, 10, 30, 20]

/-- `PST.kE` (king endgame). -/
def PST_KE : List ℤ :=
  [-50,-40,-30,-20,-20,-30,-40,-50,
   -30,-20,-10,  0,  0,-10,-20,-30,
   -30,-10, 20, 30, 30, 20,-10,-30,
   -30,-10, 30, 40, 40, 30,-10,-30,
   -30,-10, 30, 40, 40, 30,-10,-30,
   -30,-10, 20, 30, 30, 20,-10,-30,
   -30,-30,  0,  0,  0,  0,-30,-30,
   -50,-30,-30,-30,-30,-30,-30,-50]

/-- PST for a non-king piece type. -/
def PST : PType → List ℤ
  | .p => PST_P
  | .n => PST_N
  | .b => PST_B
  | .r => PST_R
  | .q => PST_Q
  | .k => PST_K

/-- `sqIdx(sq, color)`: the source parses the algebraic square back
into file `f = 'abcdefgh'.indexOf(sq[0])` and `r = parseInt(sq[1]) - 1`,
then returns `(7 - r) * 8 + f` for white and `r * 8 + (7 - f)` for
black (note the file is flipped as well for black).  Here `f` is the
file 0..7 and `rank` the 1-based rank as in the algebraic square. -/
def sqIdx (f rank : ℕ) (c : PColor) : ℕ :=
  match c with
  | .w => (7 - (rank - 1)) * 8 + f
  | .b => (rank - 1) * 8 + (7 - f)

/-- The oracle view of one chess.js position, restricted to what
`evaluate` reads: the board grid, side to move, terminal predicates,
and the two legal-move counts used by the mobility term
(`chess.moves().length` for the side to move, and the move count of
the synthetic side-flipped position with en passant cleared, with 0
standing for a failed synthesis, exactly as the `catch` branch does). -/
structure EvalPos where
  board : Board
  turn : PColor
  inCheckmate : Bool
  inStalemate : Bool
  inDraw : Bool
  inThreefold : Bool
  insufficientMaterial : Bool
  movesCount : ℕ
  oppMovesCount : ℕ
deriving DecidableEq, Repr

/-- White pawn ranks (1..8) on file `fz`, in board-scan order
(`r = 0..7`, i.e. descending rank), `[]` off the board — this is the
`wPawnFiles` map of the source (`undefined` ↦ `[]`). -/
def wPawnRanks (bd : Board) (fz : ℤ) : List ℕ :=
  if 0 ≤ fz ∧ fz < 8 then
    (List.range 8).filterMap fun r =>
      match boardAt bd r fz.toNat with
      | some pc =>
          if pc.color = PColor.w ∧ pc.ptype = PType.p then some (8 - r) else none
      | none => none
  else []

/-- Black pawn ranks on file `fz` (the source's `bPawnFiles`). -/
def bPawnRanks (bd : Board) (fz : ℤ) : List ℕ :=
  if 0 ≤ fz ∧ fz < 8 then
    (List.range 8).filterMap fun r =>
      match boardAt bd r fz.toNat with
      | some pc =>
          if pc.color = PColor.b ∧ pc.ptype = PType.p then some (8 - r) else none
      | none => none
  else []

/-- Scan order of the nested `for (r) for (f)` loops. -/
def cells : List (ℕ × ℕ) :=
  (List.range 8).flatMap fun r => (List.range 8).map fun f => (r, f)

/-- White passed-pawn test for a white pawn on `(file f, rank)`:
no black pawn on files `f-1..f+1` with a strictly greater rank. -/
def wPassed (bd : Board) (f rank : ℕ) : Bool :=
  ! (([-1, 0, 1] : List ℤ).any fun df =>
      (bPawnRanks bd ((f : ℤ) + df)).any fun br => decide (rank < br))

/-- Black passed-pawn test: no white pawn ahead (strictly lower rank)
on files `f-1..f+1`. -/
def bPassed (bd : Board) (f rank : ℕ) : Bool :=
  ! (([-1, 0, 1] : List ℤ).any fun df =>
      (wPawnRanks bd ((f : ℤ) + df)).any fun wr => decide (wr < rank))

/-- Count of (unordered) pairs of squares sharing a row or a file, as
produced by the double loop of the rook-battery term. -/
def pairsSharing : List (ℕ × ℕ) → ℕ
  | [] => 0
  | x :: xs => (xs.countP fun y => decide (x.1 = y.1 ∨ x.2 = y.2)) + pairsSharing xs

/-- `passedBonus` array, indexed by rank (index 8 reads `undefined || 0`). -/
def passedBonus : List ℤ := [0, 0, 10, 20, 35, 55, 80, 120]

/-- `CANDIDATE_BONUS` array. -/
def CANDIDATE_BONUS : List ℤ := [0, 0, 5, 10, 20, 35, 0, 0]

/-- Chebyshev distance on `ℤ` coordinates. -/
def cheb (f1 r1 f2 r2 : ℤ) : ℤ := max |f1 - f2| |r1 - r2|

/-- Sum of a rational-valued contribution over the files `0..7`
(the outer `for (let f = 0; f < 8; f++)` loops). -/
def sumF (g : ℕ → ℚ) : ℚ := ((List.range 8).map g).sum

/-- Sum of a contribution over a rank list
(the `for (const rank of ...)` loops). -/
def sumL (l : List ℕ) (g : ℕ → ℚ) : ℚ := (l.map g).sum

/-- Sum of a rational contribution over the whole board scan. -/
def sumCells (g : ℕ × ℕ → ℚ) : ℚ := (cells.map g).sum

/-- Sum of an integer contribution over the whole board scan. -/
def sumCellsZ (g : ℕ × ℕ → ℤ) : ℤ := (cells.map g).sum

/-- `pawnEval(board, wPawnFiles, bPawnFiles, wKingFile, wKingRank,
bKingFile, bKingRank, endgameW)`: pawn structure, rook files,
rook-behind-passer, backward/isolated/chain/connected pawns, endgame
king proximity to passers, and the pawn shield.  King files/ranks are
`-1` when the scan found no king, as in the source. -/
def pawnEval (bd : Board) (wKingFile wKingRank bKingFile bKingRank : ℤ)
    (endgameW : ℚ) : ℚ :=
  -- Passed pawn bonus (phase-scaled) and candidate passed pawns
  let passedTerm : ℚ :=
    sumF fun f =>
      (sumL (wPawnRanks bd f) fun rank =>
        if wPassed bd f rank then
          jsRound (zAt passedBonus rank * (1/2 + 1/2 * endgameW))
        else if ((bPawnRanks bd f).filter fun br => decide (rank < br)).length = 0 then
          let supporters :=
            ((([-1, 1] : List ℤ).map fun df =>
              ((wPawnRanks bd ((f : ℤ) + df)).filter fun wr =>
                decide (rank - 1 ≤ wr ∧ wr ≤ rank + 2)).length).sum)
          let stoppers :=
            ((([-1, 1] : List ℤ).map fun df =>
              ((bPawnRanks bd ((f : ℤ) + df)).filter fun br =>
                decide (rank < br)).length).sum)
          if stoppers < supporters then zAt CANDIDATE_BONUS rank else 0
        else 0)
      +
      (sumL (bPawnRanks bd f) fun rank =>
        if bPassed bd f rank then
          -(jsRound (zAt passedBonus (9 - rank) * (1/2 + 1/2 * endgameW)))
        else if ((wPawnRanks bd f).filter fun wr => decide (wr < rank)).length = 0 then
          let supporters :=
            ((([-1, 1] : List ℤ).map fun df =>
              ((bPawnRanks bd ((f : ℤ) + df)).filter fun br =>
                decide (rank - 2 ≤ br ∧ br ≤ rank + 1)).length).sum)
          let stoppers :=
            ((([-1, 1] : List ℤ).map fun df =>
              ((wPawnRanks bd ((f : ℤ) + df)).filter fun wr =>
                decide (wr < rank)).length).sum)
          if stoppers < supporters then -(zAt CANDIDATE_BONUS (9 - rank)) else 0
        else 0)
  -- Doubled pawn penalty
  let doubledTerm : ℚ :=
    sumF fun f =>
      let wc := (wPawnRanks bd f).length
      let bc := (bPawnRanks bd f).length
      (if 1 < wc then -(((wc : ℚ) - 1) * 25) else 0) +
      (if 1 < bc then ((bc : ℚ) - 1) * 25 else 0)
  -- Rook on open / semi-open file
  let rookFileTerm : ℚ :=
    sumCells fun rf =>
      match boardAt bd rf.1 rf.2 with
      | some pc =>
          if pc.ptype = PType.r then
            let own := if pc.color = PColor.w then wPawnRanks bd rf.2 else bPawnRanks bd rf.2
            let opp := if pc.color = PColor.w then bPawnRanks bd rf.2 else wPawnRanks bd rf.2
            if own.length = 0 ∧ opp.length = 0 then
              (if pc.color = PColor.w then 25 else -25)
            else if own.length = 0 then
              (if pc.color = PColor.w then 12 else -12)
            else 0
          else 0
      | none => 0
  -- Rook behind passed pawn (the inner rook scan stops at the first hit)
  let rookBehindTerm : ℚ :=
    sumF fun f =>
      (sumL (wPawnRanks bd f) fun rank =>
        if wPassed bd f rank ∧
           ((List.range 8).any fun rr =>
             match boardAt bd rr f with
             | some pc => decide (pc.ptype = PType.r ∧ pc.color = PColor.w ∧ 8 - rr < rank)
             | none => false) then
          jsRound (15 * endgameW)
        else 0)
      +
      (sumL (bPawnRanks bd f) fun rank =>
        if bPassed bd f rank ∧
           ((List.range 8).any fun rr =>
             match boardAt bd rr f with
             | some pc => decide (pc.ptype = PType.r ∧ pc.color = PColor.b ∧ rank < 8 - rr)
             | none => false) then
          -(jsRound (15 * endgameW))
        else 0)
  -- Backward pawn penalty
  let backwardTerm : ℚ :=
    sumF fun f =>
      (sumL (wPawnRanks bd f) fun rank =>
        let hasSupport :=
          ((wPawnRanks bd ((f : ℤ) - 1)).any fun wr => decide (wr ≤ rank)) ∨
          ((wPawnRanks bd ((f : ℤ) + 1)).any fun wr => decide (wr ≤ rank))
        let stopControlled :=
          ((bPawnRanks bd ((f : ℤ) - 1)).any fun br => decide (br = rank + 1)) ∨
          ((bPawnRanks bd ((f : ℤ) + 1)).any fun br => decide (br = rank + 1))
        let blocked := (bPawnRanks bd f).any fun br => decide (br = rank + 1)
        if ¬hasSupport ∧ stopControlled ∧ blocked then (-15 : ℚ) else 0)
      +
      (sumL (bPawnRanks bd f) fun rank =>
        let hasSupport :=
          ((bPawnRanks bd ((f : ℤ) - 1)).any fun br => decide (rank ≤ br)) ∨
          ((bPawnRanks bd ((f : ℤ) + 1)).any fun br => decide (rank ≤ br))
        let stopControlled :=
          ((wPawnRanks bd ((f : ℤ) - 1)).any fun wr => decide (wr = rank - 1)) ∨
          ((wPawnRanks bd ((f : ℤ) + 1)).any fun wr => decide (wr = rank - 1))
        let blocked := (wPawnRanks bd f).any fun wr => decide (wr = rank - 1)
        if ¬hasSupport ∧ stopControlled ∧ blocked then (15 : ℚ) else 0)
  -- Isolated pawn penalty
  let isolatedTerm : ℚ :=
    sumF fun f =>
      let wc := (wPawnRanks bd f).length
      let bc := (bPawnRanks bd f).length
      (if 0 < wc ∧ (wPawnRanks bd ((f : ℤ) - 1)).length = 0 ∧
          (wPawnRanks bd ((f : ℤ) + 1)).length = 0 then -((wc : ℚ) * 20) else 0) +
      (if 0 < bc ∧ (bPawnRanks bd ((f : ℤ) - 1)).length = 0 ∧
          (bPawnRanks bd ((f : ℤ) + 1)).length = 0 then (bc : ℚ) * 20 else 0)
  -- Pawn chain bonus
  let chainTerm : ℚ :=
    sumF fun f =>
      (sumL (wPawnRanks bd f) fun rank =>
        if (wPawnRanks bd ((f : ℤ) - 1)).contains (rank + 1) ∨
           (wPawnRanks bd ((f : ℤ) + 1)).contains (rank + 1) then (10 : ℚ) else 0)
      +
      (sumL (bPawnRanks bd f) fun rank =>
        if (bPawnRanks bd ((f : ℤ) - 1)).contains (rank - 1) ∨
           (bPawnRanks bd ((f : ℤ) + 1)).contains (rank - 1) then (-10 : ℚ) else 0)
  -- Connected pawns bonus
  let connectedTerm : ℚ :=
    sumF fun f =>
      (sumL (wPawnRanks bd f) fun rank =>
        let connected :=
          (0 < f ∧ ((wPawnRanks bd ((f : ℤ) - 1)).any fun wr => decide (|(wr : ℤ) - rank| ≤ 1))) ∨
          (f < 7 ∧ ((wPawnRanks bd ((f : ℤ) + 1)).any fun wr => decide (|(wr : ℤ) - rank| ≤ 1)))
        if connected then (8 : ℚ) else 0)
      +
      (sumL (bPawnRanks bd f) fun rank =>
        let connected :=
          (0 < f ∧ ((bPawnRanks bd ((f : ℤ) - 1)).any fun br => decide (|(br : ℤ) - rank| ≤ 1))) ∨
          (f < 7 ∧ ((bPawnRanks bd ((f : ℤ) + 1)).any fun br => decide (|(br : ℤ) - rank| ≤ 1)))
        if connected then (-8 : ℚ) else 0)
  -- Endgame king proximity to passed pawns
  let proximityTerm : ℚ :=
    if 3/10 < endgameW then
      sumF fun f =>
        (sumL (wPawnRanks bd f) fun rank =>
          if wPassed bd f rank ∧ 0 ≤ wKingFile then
            let wDist := cheb wKingFile wKingRank f rank
            let bDist := if 0 ≤ bKingFile then cheb bKingFile bKingRank f rank else 7
            jsRound (((bDist - wDist : ℤ) : ℚ) * 5 * endgameW)
          else 0)
        +
        (sumL (bPawnRanks bd f) fun rank =>
          if bPassed bd f rank ∧ 0 ≤ bKingFile then
            let bDist := cheb bKingFile bKingRank f rank
            let wDist := if 0 ≤ wKingFile then cheb wKingFile wKingRank f rank else 7
            Neg.neg (jsRound (((wDist - bDist : ℤ) : ℚ) * 5 * endgameW))
          else 0)
    else 0
  -- Pawn shield (middlegame only)
  let shieldTerm : ℚ :=
    if endgameW < 6/10 then
      let shieldMg := jsRound (8 * (1 - endgameW))
      (if 0 ≤ wKingFile then
        ((([-1, 0, 1] : List ℤ).map fun df =>
          if ((wPawnRanks bd (wKingFile + df)).any fun rk =>
              decide ((rk : ℤ) = wKingRank + 1 ∨ (rk : ℤ) = wKingRank + 2)) then shieldMg
          else 0).sum)
      else 0)
      +
      (if 0 ≤ bKingFile then
        ((([-1, 0, 1] : List ℤ).map fun df =>
          if ((bPawnRanks bd (bKingFile + df)).any fun rk =>
              decide ((rk : ℤ) = bKingRank - 1 ∨ (rk : ℤ) = bKingRank - 2)) then -shieldMg
          else 0).sum)
      else 0)
    else 0
  passedTerm + doubledTerm + rookFileTerm + rookBehindTerm + backwardTerm +
    isolatedTerm + chainTerm + connectedTerm + proximityTerm + shieldTerm

/-- `kingTropismScore`: proximity of minor/major pieces to the enemy
king, weights `{n:3, b:2, r:2, q:4}`, total halved and rounded. -/
def kingTropismScore (bd : Board) (wKingFile wKingRank bKingFile bKingRank : ℤ) : ℚ :=
  let tw : PType → ℤ := fun t =>
    match t with
    | .n => 3
    | .b => 2
    | .r => 2
    | .q => 4
    | _ => 0
  let raw : ℤ :=
    sumCellsZ fun rf =>
      match boardAt bd rf.1 rf.2 with
      | some pc =>
          let w := tw pc.ptype
          if w = 0 then 0
          else
            let pr : ℤ := 8 - (rf.1 : ℤ)
            (if pc.color = PColor.w ∧ 0 ≤ bKingFile then
              max 0 ((7 - cheb rf.2 pr bKingFile bKingRank) * w)
            else 0) +
            (if pc.color = PColor.b ∧ 0 ≤ wKingFile then
              -(max 0 ((7 - cheb rf.2 pr wKingFile wKingRank) * w))
            else 0)
      | none => 0
  jsRound ((raw : ℚ) * (1/2))

/-- `kingAttackScore`: weighted count of enemy pieces in the 3×3 zone
around each king with a non-linear penalty, scaled by `1 - endgameW`
and skipped entirely when `endgameW > 0.7`. -/
def kingAttackScore (bd : Board) (wKingFile wKingRank bKingFile bKingRank : ℤ)
    (endgameW : ℚ) : ℚ :=
  if 7/10 < endgameW then 0
  else
    let aw : PType → ℤ := fun t =>
      match t with
      | .p => 1
      | .n => 2
      | .b => 2
      | .r => 3
      | .q => 5
      | .k => 0
    let wZone : ℤ :=
      sumCellsZ fun rf =>
        match boardAt bd rf.1 rf.2 with
        | some pc =>
            if pc.ptype = PType.k then 0
            else if pc.color = PColor.b ∧ 0 ≤ wKingFile ∧
                |(rf.2 : ℤ) - wKingFile| ≤ 1 ∧ |(8 - (rf.1 : ℤ)) - wKingRank| ≤ 1 then
              aw pc.ptype
            else 0
        | none => 0
    let bZone : ℤ :=
      sumCellsZ fun rf =>
        match boardAt bd rf.1 rf.2 with
        | some pc =>
            if pc.ptype = PType.k then 0
            else if pc.color = PColor.w ∧ 0 ≤ bKingFile ∧
                |(rf.2 : ℤ) - bKingFile| ≤ 1 ∧ |(8 - (rf.1 : ℤ)) - bKingRank| ≤ 1 then
              aw pc.ptype
            else 0
        | none => 0
    let penalty : ℤ → ℤ := fun att =>
      if att = 0 then 0 else if att = 1 then 10 else if att = 2 then 25
      else if att = 3 then 45 else 70 + (att - 3) * 15
    jsRound (((penalty bZone - penalty wZone : ℤ) : ℚ) * (1 - endgameW))

/-- Last white/black king square `(r, f)` in scan order (the source
overwrites `wKingFile`/`wKingRank` on every king it encounters). -/
def kingRF (bd : Board) (c : PColor) : Option (ℕ × ℕ) :=
  cells.foldl
    (fun acc rf =>
      match boardAt bd rf.1 rf.2 with
      | some pc => if pc.color = c ∧ pc.ptype = PType.k then some rf else acc
      | none => acc)
    none

/-- `wKingFile`-style projection: file or `-1`. -/
def kingFileOf (bd : Board) (c : PColor) : ℤ :=
  match kingRF bd c with
  | some rf => rf.2
  | none => -1

/-- `wKingRank`-style projection: `8 - r` or `-1`. -/
def kingRankOf (bd : Board) (c : PColor) : ℤ :=
  match kingRF bd c with
  | some rf => 8 - (rf.1 : ℤ)
  | none => -1

/-- `evaluate(chess, skipMobility)`: static evaluation in centipawns,
positive = white better.  Terminal shortcuts first, then the sum of
material/PST, bishop pair, blended king PST, pawn structure, king
attack zone, king tropism, rook on 7th, knight outposts, space,
tempo, rook batteries, hanging pieces and (unless suppressed)
mobility. -/
def evaluate (ep : EvalPos) (skipMobility : Bool) : ℚ :=
  if ep.inCheckmate then (if ep.turn = PColor.w then -30000 else 30000)
  else if ep.inDraw || ep.inStalemate || ep.inThreefold then 0
  else
    let bd := ep.board
    -- first board scan: material + PST and the various counters
    let wMat : ℚ :=
      sumCells fun rf =>
        match boardAt bd rf.1 rf.2 with
        | some pc => if pc.color = PColor.w then PIECE_VALUE pc.ptype else 0
        | none => 0
    let bMat : ℚ :=
      sumCells fun rf =>
        match boardAt bd rf.1 rf.2 with
        | some pc => if pc.color = PColor.b then PIECE_VALUE pc.ptype else 0
        | none => 0
    let matPstTerm : ℚ :=
      sumCells fun rf =>
        match boardAt bd rf.1 rf.2 with
        | some pc =>
            let pst :=
              if pc.ptype = PType.k then 0
              else zAt (PST pc.ptype) (sqIdx rf.2 (8 - rf.1) pc.color)
            if pc.color = PColor.w then PIECE_VALUE pc.ptype + pst
            else -(PIECE_VALUE pc.ptype + pst)
        | none => 0
    let wBishops : ℕ :=
      cells.countP fun rf =>
        match boardAt bd rf.1 rf.2 with
        | some pc => decide (pc.color = PColor.w ∧ pc.ptype = PType.b)
        | none => false
    let bBishops : ℕ :=
      cells.countP fun rf =>
        match boardAt bd rf.1 rf.2 with
        | some pc => decide (pc.color = PColor.b ∧ pc.ptype = PType.b)
        | none => false
    let wPawnCount : ℕ :=
      cells.countP fun rf =>
        match boardAt bd rf.1 rf.2 with
        | some pc => decide (pc.color = PColor.w ∧ pc.ptype = PType.p)
        | none => false
    let bPawnCount : ℕ :=
      cells.countP fun rf =>
        match boardAt bd rf.1 rf.2 with
        | some pc => decide (pc.color = PColor.b ∧ pc.ptype = PType.p)
        | none => false
    let wKingFile := kingFileOf bd PColor.w
    let wKingRank := kingRankOf bd PColor.w
    let bKingFile := kingFileOf bd PColor.b
    let bKingRank := kingRankOf bd PColor.b
    -- Bishop pair bonus, scaled by board openness
    let bpOpenScale : ℚ := max (3/10) (1 - ((wPawnCount : ℚ) + (bPawnCount : ℚ)) / 16)
    let bishopPairTerm : ℚ :=
      (if 2 ≤ wBishops then jsRound (30 * bpOpenScale) else 0) +
      (if 2 ≤ bBishops then -(jsRound (30 * bpOpenScale)) else 0)
    -- Game phase
    let totalMat : ℚ := wMat + bMat - PIECE_VALUE PType.k * 2
    let endgameW : ℚ := max 0 (1 - totalMat / 3200)
    -- King safety: blended middle-game / end-game king PST
    let kingBlendTerm : ℚ :=
      sumCells fun rf =>
        match boardAt bd rf.1 rf.2 with
        | some pc =>
            if pc.ptype = PType.k then
              let idx := sqIdx rf.2 (8 - rf.1) pc.color
              let kVal := zAt PST_K idx * (1 - endgameW) + zAt PST_KE idx * endgameW
              if pc.color = PColor.w then kVal else -kVal
            else 0
        | none => 0
    -- Pawn structure + rook files + pawn shield
    let pawnTerm := pawnEval bd wKingFile wKingRank bKingFile bKingRank endgameW
    -- King attack zone
    let attackTerm := kingAttackScore bd wKingFile wKingRank bKingFile bKingRank endgameW
    -- King tropism
    let tropismTerm := kingTropismScore bd wKingFile wKingRank bKingFile bKingRank
    -- Rook on 7th rank
    let rook7Term : ℚ :=
      sumCells fun rf =>
        match boardAt bd rf.1 rf.2 with
        | some pc =>
            if pc.ptype = PType.r then
              let rank := 8 - rf.1
              (if pc.color = PColor.w ∧ rank = 7 then
                let has7thPawns :=
                  (bPawnRanks bd rf.2).contains 7 ∨
                  ((List.range 8).any fun ff => (bPawnRanks bd ff).contains 7)
                if has7thPawns ∨ bKingRank = 8 then (25 : ℚ) else 0
              else 0) +
              (if pc.color = PColor.b ∧ rank = 2 then
                let has2ndPawns :=
                  (List.range 8).any fun ff => (wPawnRanks bd ff).contains 2
                if has2ndPawns ∨ wKingRank = 1 then (-25 : ℚ) else 0
              else 0)
            else 0
        | none => 0
    -- Knight outposts
    let outpostTerm : ℚ :=
      sumCells fun rf =>
        match boardAt bd rf.1 rf.2 with
        | some pc =>
            if pc.ptype = PType.n then
              let f := rf.2
              let rank := 8 - rf.1
              (if pc.color = PColor.w ∧ 5 ≤ rank then
                let protectedByPawn :=
                  (wPawnRanks bd ((f : ℤ) - 1)).contains (rank - 1) ∨
                  (wPawnRanks bd ((f : ℤ) + 1)).contains (rank - 1)
                let challengeable :=
                  ((bPawnRanks bd ((f : ℤ) - 1)).any fun br => decide (br < rank)) ∨
                  ((bPawnRanks bd ((f : ℤ) + 1)).any fun br => decide (br < rank))
                if protectedByPawn ∧ ¬challengeable then (20 : ℚ) else 0
              else 0) +
              (if pc.color = PColor.b ∧ rank ≤ 4 then
                let protectedByPawn :=
                  (bPawnRanks bd ((f : ℤ) - 1)).contains (rank + 1) ∨
                  (bPawnRanks bd ((f : ℤ) + 1)).contains (rank + 1)
                let challengeable :=
                  ((wPawnRanks bd ((f : ℤ) - 1)).any fun wr => decide (rank < wr)) ∨
                  ((wPawnRanks bd ((f : ℤ) + 1)).any fun wr => decide (rank < wr))
                if protectedByPawn ∧ ¬challengeable then (-20 : ℚ) else 0
              else 0)
            else 0
        | none => 0
    -- Space advantage on central files c-f (middlegame only)
    let wSpace : ℤ :=
      ((([2, 3, 4, 5] : List ℕ).map fun f =>
        (((wPawnRanks bd f).map fun rank => (rank : ℤ) - 2).sum)).sum)
    let bSpace : ℤ :=
      ((([2, 3, 4, 5] : List ℕ).map fun f =>
        (((bPawnRanks bd f).map fun rank => 7 - (rank : ℤ)).sum)).sum)
    let spaceTerm : ℚ := jsRound (((wSpace - bSpace : ℤ) : ℚ) * (max 0 (1 - endgameW) * (1/2)))
    -- Tempo bonus
    let tempoVal : ℚ := jsRound (15 - 10 * endgameW)
    let tempoTerm : ℚ := if ep.turn = PColor.w then tempoVal else -tempoVal
    -- Rook battery bonus (pairs of same-color rooks sharing file or rank)
    let wRooks : List (ℕ × ℕ) :=
      cells.filter fun rf =>
        match boardAt bd rf.1 rf.2 with
        | some pc => decide (pc.ptype = PType.r ∧ pc.color = PColor.w)
        | none => false
    let bRooks : List (ℕ × ℕ) :=
      cells.filter fun rf =>
        match boardAt bd rf.1 rf.2 with
        | some pc => decide (pc.ptype = PType.r ∧ pc.color = PColor.b)
        | none => false
    let batteryTerm : ℚ :=
      15 * (pairsSharing wRooks : ℚ) - 15 * (pairsSharing bRooks : ℚ)
    -- Hanging piece penalty
    let hangingTerm : ℚ :=
      sumCells fun rf =>
        match boardAt bd rf.1 rf.2 with
        | some pc =>
            if pc.ptype = PType.p ∨ pc.ptype = PType.k then 0
            else if PIECE_VALUE pc.ptype < 300 then 0
            else
              let f := rf.2
              let rank := 8 - rf.1
              if pc.color = PColor.w then
                let attackedByBPawn :=
                  ((bPawnRanks bd ((f : ℤ) - 1)).any fun br => decide (br = rank + 1)) ∨
                  ((bPawnRanks bd ((f : ℤ) + 1)).any fun br => decide (br = rank + 1))
                if attackedByBPawn then
                  let defendedByWPawn :=
                    ((wPawnRanks bd ((f : ℤ) - 1)).any fun wr => decide (wr = rank - 1)) ∨
                    ((wPawnRanks bd ((f : ℤ) + 1)).any fun wr => decide (wr = rank - 1))
                  if ¬defendedByWPawn then (-20 : ℚ) else 0
                else 0
              else
                let attackedByWPawn :=
                  ((wPawnRanks bd ((f : ℤ) - 1)).any fun wr => decide (wr = rank - 1)) ∨
                  ((wPawnRanks bd ((f : ℤ) + 1)).any fun wr => decide (wr = rank - 1))
                if attackedByWPawn then
                  let defendedByBPawn :=
                    ((bPawnRanks bd ((f : ℤ) - 1)).any fun br => decide (br = rank + 1)) ∨
                    ((bPawnRanks bd ((f : ℤ) + 1)).any fun br => decide (br = rank + 1))
                  if ¬defendedByBPawn then (20 : ℚ) else 0
                else 0
        | none => 0
    -- Symmetric mobility (suppressed in quiescence)
    let mobilityTerm : ℚ :=
      if skipMobility then 0
      else
        let toMoveCount := ep.movesCount
        let oppCount := ep.oppMovesCount
        let mgW := max 0 (1 - endgameW)
        let wMobility : ℕ := if ep.turn = PColor.w then toMoveCount else oppCount
        let bMobility : ℕ := if ep.turn = PColor.w then oppCount else toMoveCount
        jsRound (((wMobility : ℚ) - (bMobility : ℚ)) * 2 * mgW)
    matPstTerm + bishopPairTerm + kingBlendTerm + pawnTerm + attackTerm +
      tropismTerm + rook7Term + outpostTerm + spaceTerm + tempoTerm +
      batteryTerm + hangingTerm + mobilityTerm

/-! ## The search core

These definitions embed the module-level search machinery of
`engine.js`: the transposition table, the heuristic tables, move
ordering, quiescence, the alpha-beta minimax and the root driver.

The chess.js `chess` object is a finite game tree (`GTree`) plus the
undo stack (`ChessObj`); `chess.move(m)` pushes the current node and
descends into `m`'s subtree, `chess.undo()` pops.  All recursion is
fuelled: `none` means the fuel ran out before the source program
returned, and every theorem about a run is conditional on the run
having produced `some` result. -/

/-- A verbose chess.js move: `{from, to, piece, captured?, promotion?, san}`. -/
structure MoveV where
  mfrom : String
  mto : String
  piece : PType
  captured : Option PType
  promotion : Option PType
  san : String
deriving DecidableEq, Repr

/-- The oracle game tree: one chess.js position together with every
observation the engine makes of it (`fen()`, `in_check()`,
`game_over()`, `moves({verbose:true})` paired with the positions the
moves lead to, and the null-move position `new Chess(makeNullMoveFen(...))`
— `none` when that constructor would throw). -/
inductive GTree where
  | node (ep : EvalPos) (fen : String) (check : Bool) (gameOver : Bool)
      (moves : List (MoveV × GTree)) (nullMv : Option GTree)

/-- `chess.board()`-side data of the node. -/
def GTree.ep : GTree → EvalPos
  | .node e _ _ _ _ _ => e

/-- `chess.fen()`. -/
def GTree.fen : GTree → String
  | .node _ f _ _ _ _ => f

/-- `chess.in_check()`. -/
def GTree.check : GTree → Bool
  | .node _ _ c _ _ _ => c

/-- `chess.game_over()`. -/
def GTree.gameOver : GTree → Bool
  | .node _ _ _ g _ _ => g

/-- `chess.moves({verbose: true})`, each move paired with the position
reached by playing it. -/
def GTree.moves : GTree → List (MoveV × GTree)
  | .node _ _ _ _ m _ => m

/-- The null-move position (side flipped, en passant cleared,
halfmove clock bumped), `none` when `new Chess(nullFen)` throws. -/
def GTree.nullMv : GTree → Option GTree
  | .node _ _ _ _ _ n => n

/-- The mutable `chess` object: current position and undo stack. -/
structure ChessObj where
  cur : GTree
  undoStack : List GTree

/-- `chess.move(move)`: descend into the move's subtree, remembering
the current node for `undo`. -/
def objMove (o : ChessObj) (child : GTree) : ChessObj :=
  ⟨child, o.cur :: o.undoStack⟩

/-- `chess.undo()`: pop the last made move (no-op on empty history). -/
def objUndo (o : ChessObj) : ChessObj :=
  match o.undoStack with
  | [] => o
  | h :: t => ⟨h, t⟩

/-- Association-list read (models keyed JS object / array-slot reads). -/
def alGet {κ β : Type} [DecidableEq κ] : List (κ × β) → κ → Option β
  | [], _ => none
  | (k, v) :: rest, key => if k = key then some v else alGet rest key

/-- Association-list write: replace in place or append. -/
def alSet {κ β : Type} [DecidableEq κ] : List (κ × β) → κ → β → List (κ × β)
  | [], key, v => [(key, v)]
  | (k, v0) :: rest, key, v =>
      if k = key then (key, v) :: rest else (k, v0) :: alSet rest key v

/-- `TT_EXACT` / `TT_LOWER` / `TT_UPPER`. -/
inductive TTFlag where
  | EXACT
  | LOWER
  | UPPER
deriving DecidableEq, Repr

/-- One transposition-table entry `{fen, depth, score, flag, bestMove}`. -/
structure TTEntry where
  efen : String
  depth : ℕ
  score : ℚ
  flag : TTFlag
  bestMove : Option String
deriving DecidableEq, Repr

/-- The TT array, sparsely represented: absent slots are empty. -/
def TTMap := List (ℕ × TTEntry)

/-- `TT_SIZE = 1 << 20`. -/
def TT_SIZE : ℕ := 2 ^ 20

/-- `ttKey(fen)`: rolling 31-ary hash of the FEN string, masked to 20
bits at every step (`& (TT_SIZE - 1)` on non-negative values is
`% TT_SIZE`). -/
def ttKey (fen : String) : ℕ :=
  fen.data.foldl (fun h c => (h * 31 + c.toNat) % TT_SIZE) 0

/-- `ttGet(fen, depth, alpha, beta)`. -/
def ttGet (t : TTMap) (fen : String) (depth : ℕ) (alpha beta : ℚ) : Option ℚ :=
  match alGet t (ttKey fen) with
  | none => none
  | some e =>
      if e.efen ≠ fen ∨ e.depth < depth then none
      else if e.flag = TTFlag.EXACT then some e.score
      else if e.flag = TTFlag.LOWER ∧ beta ≤ e.score then some e.score
      else if e.flag = TTFlag.UPPER ∧ e.score ≤ alpha then some e.score
      else none

/-- `ttSet(fen, depth, score, flag, bestMove)`: store iff the slot is
empty or holds an entry of depth ≤ the new depth. -/
def ttSet (t : TTMap) (fen : String) (depth : ℕ) (score : ℚ) (flag : TTFlag)
    (bestMove : Option String) : TTMap :=
  match alGet t (ttKey fen) with
  | none => alSet t (ttKey fen) ⟨fen, depth, score, flag, bestMove⟩
  | some e =>
      if e.depth ≤ depth then alSet t (ttKey fen) ⟨fen, depth, score, flag, bestMove⟩
      else t

/-- `ttGetMove(fen)`. -/
def ttGetMove (t : TTMap) (fen : String) : Option String :=
  match alGet t (ttKey fen) with
  | some e => if e.efen = fen ∧ e.bestMove ≠ none then e.bestMove else none
  | none => none

/-- Lowercase letter of a piece type (used in the string keys). -/
def ptypeStr : PType → String
  | .p => "p"
  | .n => "n"
  | .b => "b"
  | .r => "r"
  | .q => "q"
  | .k => "k"

/-- Killer/TT move key `move.from + move.to`. -/
def moveKeyOf (m : MoveV) : String := m.mfrom ++ m.mto

/-- History/countermove key `move.piece + move.from + move.to`. -/
def histKeyOf (m : MoveV) : String := ptypeStr m.piece ++ m.mfrom ++ m.mto

/-- `INFINITY = 9999999`. -/
def INFINITY : ℚ := 9999999

/-- The per-worker mutable search state: node counter, killer table,
history table, countermove table, move stack and transposition table. -/
structure SearchSt where
  nodes : ℕ
  killers : List (ℕ × (Option String × Option String))
  hist : List (String × ℕ)
  counter : List (String × String)
  moveStack : List (ℕ × String)
  tt : TTMap

/-- Stable insertion into a list sorted descending by `key` (an
element is placed before the first strictly-smaller-keyed one;
equal keys preserve original order, as JS `Array.prototype.sort`
is stable). -/
def insertRanked {α : Type} (key : α → ℚ) (x : α) : List α → List α
  | [] => [x]
  | y :: ys => if key x < key y then y :: insertRanked key x ys else x :: y :: ys

/-- Stable sort, descending by `key`. -/
def sortRanked {α : Type} (key : α → ℚ) : List α → List α
  | [] => []
  | x :: xs => insertRanked key x (sortRanked key xs)

/-- The composite ordering score of `orderMoves`'s inner `scoreMove`. -/
def scoreMove (kSet : List String) (counterKey : Option String)
    (histT : List (String × ℕ)) (ttMove : Option String) (m : MoveV) : ℚ :=
  (if ttMove = some (moveKeyOf m) then 300 else 0) +
  (match m.captured with
   | some c => PIECE_VALUE c * 10 - PIECE_VALUE m.piece
   | none => 0) +
  (match m.promotion with
   | some pr => PIECE_VALUE pr * 8
   | none => 0) +
  (if kSet.contains (moveKeyOf m) then 90 else 0) +
  (match counterKey with
   | some ck =>
       if m.captured = none ∧ m.promotion = none ∧ ck = histKeyOf m then 75 else 0
   | none => 0) +
  (if m.captured = none ∧ m.promotion = none then
    match alGet histT (histKeyOf m) with
    | some v => if v ≠ 0 then min 80 ((v : ℚ) / 100) else 0
    | none => 0
  else 0)

/-- `orderMoves(moves, chess, ply, prevMoveKey, ttMove)`: stable sort
of the move list, descending by `scoreMove`. -/
def orderMoves (moves : List (MoveV × GTree)) (st : SearchSt) (ply : ℕ)
    (prevMoveKey : Option String) (ttMove : Option String) : List (MoveV × GTree) :=
  let kSet : List String :=
    match alGet st.killers ply with
    | some kp =>
        (match kp.1 with | some s => [s] | none => []) ++
        (match kp.2 with | some s => [s] | none => [])
    | none => []
  let counterKey : Option String :=
    match prevMoveKey with
    | some pk => alGet st.counter pk
    | none => none
  sortRanked (fun mt => scoreMove kSet counterKey st.hist ttMove mt.1) moves

/-- MVV/LVA + promotion sort value used inside quiescence. -/
def qVal (m : MoveV) : ℚ :=
  (match m.captured with
   | some c => PIECE_VALUE c * 10 - PIECE_VALUE m.piece
   | none => 0) +
  (match m.promotion with
   | some pr => PIECE_VALUE pr
   | none => 0)

/-- The quiescence move loop.  `self` is the recursive quiescence
call one fuel level down; `stand` is the stand-pat score (absent when
in check, exactly as the source leaves `stand` undefined then).
Returns `maximizing ? alpha : beta`, both on normal exit and on a
beta cutoff. -/
def qLoop (self : ChessObj → ℚ → ℚ → Bool → SearchSt → Option (ℚ × ChessObj × SearchSt))
    (stand : Option ℚ) :
    List (MoveV × GTree) → ℚ → ℚ → Bool → ChessObj → SearchSt →
    Option (ℚ × ChessObj × SearchSt)
  | [], alpha, beta, maximizing, obj, st =>
      some ((if maximizing then alpha else beta), obj, st)
  | (mv, child) :: rest, alpha, beta, maximizing, obj, st =>
      -- Delta pruning: only when not in check (stand-pat available) and capturing
      let skip : Bool :=
        match stand, mv.captured with
        | some s, some c =>
            if maximizing then decide (s + PIECE_VALUE c + 200 < alpha)
            else decide (beta < s - PIECE_VALUE c - 200)
        | _, _ => false
      if skip then qLoop self stand rest alpha beta maximizing obj st
      else
        match self (objMove obj child) alpha beta (!maximizing) st with
        | none => none
        | some (score, obj1, st1) =>
            let obj2 := objUndo obj1
            if maximizing then
              let alpha' := if alpha < score then score else alpha
              if beta ≤ alpha' then some (alpha', obj2, st1)
              else qLoop self stand rest alpha' beta maximizing obj2 st1
            else
              let beta' := if score < beta then score else beta
              if beta' ≤ alpha then some (beta', obj2, st1)
              else qLoop self stand rest alpha beta' maximizing obj2 st1

/-- `quiescence(chess, alpha, beta, maximizing)`. -/
def quiescence : ℕ → ChessObj → ℚ → ℚ → Bool → SearchSt →
    Option (ℚ × ChessObj × SearchSt)
  | 0, _, _, _, _, _ => none
  | fuel + 1, obj, alpha, beta, maximizing, st =>
      let st := { st with nodes := st.nodes + 1 }
      let inCheck := obj.cur.check
      if inCheck then
        -- In check: search all evasions; an empty list is checkmate
        let allMoves := obj.cur.moves
        if allMoves.isEmpty then
          some ((if maximizing then -30000 else 30000), obj, st)
        else
          qLoop (quiescence fuel) none (sortRanked (fun mt => qVal mt.1) allMoves)
            alpha beta maximizing obj st
      else
        -- Stand pat (mobility skipped), usual tightening / early cutoff
        let stand := evaluate obj.cur.ep true
        let allMoves :=
          obj.cur.moves.filter fun mt =>
            decide (mt.1.captured ≠ none ∨ mt.1.promotion ≠ none)
        if maximizing then
          if beta ≤ stand then some (beta, obj, st)
          else
            let alpha' := if alpha < stand then stand else alpha
            qLoop (quiescence fuel) (some stand) (sortRanked (fun mt => qVal mt.1) allMoves)
              alpha' beta maximizing obj st
        else
          if stand ≤ alpha then some (alpha, obj, st)
          else
            let beta' := if stand < beta then stand else beta
            qLoop (quiescence fuel) (some stand) (sortRanked (fun mt => qVal mt.1) allMoves)
              alpha beta' maximizing obj st

/-- `RAZOR_MARGIN`. -/
def RAZOR_MARGIN : List ℚ := [0, 200, 350]

/-- `FUTILITY_MARGIN`. -/
def FUTILITY_MARGIN : List ℚ := [0, 150, 300, 500]

/-- `LMP_THRESHOLD`. -/
def LMP_THRESHOLD : List ℕ := [0, 5, 12]

/-- The precomputed `LMR_TABLE[d][m]` values,
`d = 0..31, m = 0..63`: `0` when `d = 0` or `m = 0`, otherwise
`max(1, floor(0.75 + log(d) * log(m+1) / 2.25))` evaluated in IEEE
double precision as the source's startup loop does. -/
def lmrTableData : List (List ℕ) :=
  [
   [0, 0, 0, 0, 0, 0, 0, 0, 0, 0, 0, 0, 0, 0, 0, 0, 0, 0, 0, 0, 0, 0, 0, 0, 0, 0, 0, 0, 0, 0, 0, 0, 0, 0, 0, 0, 0, 0, 0, 0, 0, 0, 0, 0, 0, 0, 0, 0, 0, 0, 0, 0, 0, 0, 0, 0, 0, 0, 0, 0, 0, 0, 0, 0],
   [0, 1, 1, 1, 1, 1, 1, 1, 1, 1, 1, 1, 1, 1, 1, 1, 1, 1, 1, 1, 1, 1, 1, 1, 1, 1, 1, 1, 1, 1, 1, 1, 1, 1, 1, 1, 1, 1, 1, 1, 1, 1, 1, 1, 1, 1, 1, 1, 1, 1, 1, 1, 1, 1, 1, 1, 1, 1, 1, 1, 1, 1, 1, 1],
   [0, 1, 1, 1, 1, 1, 1, 1, 1, 1, 1, 1, 1, 1, 1, 1, 1, 1, 1, 1, 1, 1, 1, 1, 1, 1, 1, 1, 1, 1, 1, 1, 1, 1, 1, 1, 1, 1, 1, 1, 1, 1, 1, 1, 1, 1, 1, 1, 1, 1, 1, 1, 1, 1, 1, 1, 1, 2, 2, 2, 2, 2, 2, 2],
   [0, 1, 1, 1, 1, 1, 1, 1, 1, 1, 1, 1, 2, 2, 2, 2, 2, 2, 2, 2, 2, 2, 2, 2, 2, 2, 2, 2, 2, 2, 2, 2, 2, 2, 2, 2, 2, 2, 2, 2, 2, 2, 2, 2, 2, 2, 2, 2, 2, 2, 2, 2, 2, 2, 2, 2, 2, 2, 2, 2, 2, 2, 2, 2],
   [0, 1, 1, 1, 1, 1, 1, 2, 2, 2, 2, 2, 2, 2, 2, 2, 2, 2, 2, 2, 2, 2, 2, 2, 2, 2, 2, 2, 2, 2, 2, 2, 2, 2, 2, 2, 2, 2, 3, 3, 3, 3, 3, 3, 3, 3, 3, 3, 3, 3, 3, 3, 3, 3, 3, 3, 3, 3, 3, 3, 3, 3, 3, 3],
   [0, 1, 1, 1, 1, 2, 2, 2, 2, 2, 2, 2, 2, 2, 2, 2, 2, 2, 2, 2, 2, 2, 2, 3, 3, 3, 3, 3, 3, 3, 3, 3, 3, 3, 3, 3, 3, 3, 3, 3, 3, 3, 3, 3, 3, 3, 3, 3, 3, 3, 3, 3, 3, 3, 3, 3, 3, 3, 3, 3, 3, 3, 3, 3],
   [0, 1, 1, 1, 2, 2, 2, 2, 2, 2, 2, 2, 2, 2, 2, 2, 3, 3, 3, 3, 3, 3, 3, 3, 3, 3, 3, 3, 3, 3, 3, 3, 3, 3, 3, 3, 3, 3, 3, 3, 3, 3, 3, 3, 3, 3, 3, 3, 3, 3, 3, 3, 3, 3, 3, 3, 3, 3, 3, 4, 4, 4, 4, 4],
   [0, 1, 1, 1, 2, 2, 2, 2, 2, 2, 2, 2, 2, 3, 3, 3, 3, 3, 3, 3, 3, 3, 3, 3, 3, 3, 3, 3, 3, 3, 3, 3, 3, 3, 3, 3, 3, 3, 3, 3, 3, 3, 4, 4, 4, 4, 4, 4, 4, 4, 4, 4, 4, 4, 4, 4, 4, 4, 4, 4, 4, 4, 4, 4],
   [0, 1, 1, 2, 2, 2, 2, 2, 2, 2, 2, 3, 3, 3, 3, 3, 3, 3, 3, 3, 3, 3, 3, 3, 3, 3, 3, 3, 3, 3, 3, 3, 3, 4, 4, 4, 4, 4, 4, 4, 4, 4, 4, 4, 4, 4, 4, 4, 4, 4, 4, 4, 4, 4, 4, 4, 4, 4, 4, 4, 4, 4, 4, 4],
   [0, 1, 1, 2, 2, 2, 2, 2, 2, 2, 3, 3, 3, 3, 3, 3, 3, 3, 3, 3, 3, 3, 3, 3, 3, 3, 3, 4, 4, 4, 4, 4, 4, 4, 4, 4, 4, 4, 4, 4, 4, 4, 4, 4, 4, 4, 4, 4, 4, 4, 4, 4, 4, 4, 4, 4, 4, 4, 4, 4, 4, 4, 4, 4],
   [0, 1, 1, 2, 2, 2, 2, 2, 2, 3, 3, 3, 3, 3, 3, 3, 3, 3, 3, 3, 3, 3, 3, 4, 4, 4, 4, 4, 4, 4, 4, 4, 4, 4, 4, 4, 4, 4, 4, 4, 4, 4, 4, 4, 4, 4, 4, 4, 4, 4, 4, 4, 4, 4, 4, 4, 4, 4, 4, 4, 4, 4, 4, 5],
   [0, 1, 1, 2, 2, 2, 2, 2, 3, 3, 3, 3, 3, 3, 3, 3, 3, 3, 3, 3, 3, 4, 4, 4, 4, 4, 4, 4, 4, 4, 4, 4, 4, 4, 4, 4, 4, 4, 4, 4, 4, 4, 4, 4, 4, 4, 4, 4, 4, 4, 4, 4, 4, 5, 5, 5, 5, 5, 5, 5, 5, 5, 5, 5],
   [0, 1, 1, 2, 2, 2, 2, 3, 3, 3, 3, 3, 3, 3, 3, 3, 3, 3, 4, 4, 4, 4, 4, 4, 4, 4, 4, 4, 4, 4, 4, 4, 4, 4, 4, 4, 4, 4, 4, 4, 4, 4, 4, 4, 4, 4, 5, 5, 5, 5, 5, 5, 5, 5, 5, 5, 5, 5, 5, 5, 5, 5, 5, 5],
   [0, 1, 2, 2, 2, 2, 2, 3, 3, 3, 3, 3, 3, 3, 3, 3, 3, 4, 4, 4, 4, 4, 4, 4, 4, 4, 4, 4, 4, 4, 4, 4, 4, 4, 4, 4, 4, 4, 4, 4, 4, 5, 5, 5, 5, 5, 5, 5, 5, 5, 5, 5, 5, 5, 5, 5, 5, 5, 5, 5, 5, 5, 5, 5],
   [0, 1, 2, 2, 2, 2, 3, 3, 3, 3, 3, 3, 3, 3, 3, 4, 4, 4, 4, 4, 4, 4, 4, 4, 4, 4, 4, 4, 4, 4, 4, 4, 4, 4, 4, 4, 4, 5, 5, 5, 5, 5, 5, 5, 5, 5, 5, 5, 5, 5, 5, 5, 5, 5, 5, 5, 5, 5, 5, 5, 5, 5, 5, 5],
   [0, 1, 2, 2, 2, 2, 3, 3, 3, 3, 3, 3, 3, 3, 4, 4, 4, 4, 4, 4, 4, 4, 4, 4, 4, 4, 4, 4, 4, 4, 4, 4, 4, 4, 5, 5, 5, 5, 5, 5, 5, 5, 5, 5, 5, 5, 5, 5, 5, 5, 5, 5, 5, 5, 5, 5, 5, 5, 5, 5, 5, 5, 5, 5],
   [0, 1, 2, 2, 2, 2, 3, 3, 3, 3, 3, 3, 3, 4, 4, 4, 4, 4, 4, 4, 4, 4, 4, 4, 4, 4, 4, 4, 4, 4, 4, 5, 5, 5, 5, 5, 5, 5, 5, 5, 5, 5, 5, 5, 5, 5, 5, 5, 5, 5, 5, 5, 5, 5, 5, 5, 5, 5, 5, 5, 5, 5, 5, 5],
   [0, 1, 2, 2, 2, 3, 3, 3, 3, 3, 3, 3, 3, 4, 4, 4, 4, 4, 4, 4, 4, 4, 4, 4, 4, 4, 4, 4, 4, 5, 5, 5, 5, 5, 5, 5, 5, 5, 5, 5, 5, 5, 5, 5, 5, 5, 5, 5, 5, 5, 5, 5, 5, 5, 5, 5, 5, 5, 5, 5, 5, 5, 5, 5],
   [0, 1, 2, 2, 2, 3, 3, 3, 3, 3, 3, 3, 4, 4, 4, 4, 4, 4, 4, 4, 4, 4, 4, 4, 4, 4, 4, 5, 5, 5, 5, 5, 5, 5, 5, 5, 5, 5, 5, 5, 5, 5, 5, 5, 5, 5, 5, 5, 5, 5, 5, 5, 5, 5, 5, 5, 5, 5, 5, 6, 6, 6, 6, 6],
   [0, 1, 2, 2, 2, 3, 3, 3, 3, 3, 3, 4, 4, 4, 4, 4, 4, 4, 4, 4, 4, 4, 4, 4, 4, 5, 5, 5, 5, 5, 5, 5, 5, 5, 5, 5, 5, 5, 5, 5, 5, 5, 5, 5, 5, 5, 5, 5, 5, 5, 5, 5, 5, 5, 5, 6, 6, 6, 6, 6, 6, 6, 6, 6],
   [0, 1, 2, 2, 2, 3, 3, 3, 3, 3, 3, 4, 4, 4, 4, 4, 4, 4, 4, 4, 4, 4, 4, 4, 5, 5, 5, 5, 5, 5, 5, 5, 5, 5, 5, 5, 5, 5, 5, 5, 5, 5, 5, 5, 5, 5, 5, 5, 5, 5, 5, 6, 6, 6, 6, 6, 6, 6, 6, 6, 6, 6, 6, 6],
   [0, 1, 2, 2, 2, 3, 3, 3, 3, 3, 3, 4, 4, 4, 4, 4, 4, 4, 4, 4, 4, 4, 4, 5, 5, 5, 5, 5, 5, 5, 5, 5, 5, 5, 5, 5, 5, 5, 5, 5, 5, 5, 5, 5, 5, 5, 5, 5, 6, 6, 6, 6, 6, 6, 6, 6, 6, 6, 6, 6, 6, 6, 6, 6],
   [0, 1, 2, 2, 2, 3, 3, 3, 3, 3, 4, 4, 4, 4, 4, 4, 4, 4, 4, 4, 4, 4, 5, 5, 5, 5, 5, 5, 5, 5, 5, 5, 5, 5, 5, 5, 5, 5, 5, 5, 5, 5, 5, 5, 5, 6, 6, 6, 6, 6, 6, 6, 6, 6, 6, 6, 6, 6, 6, 6, 6, 6, 6, 6],
   [0, 1, 2, 2, 2, 3, 3, 3, 3, 3, 4, 4, 4, 4, 4, 4, 4, 4, 4, 4, 4, 5, 5, 5, 5, 5, 5, 5, 5, 5, 5, 5, 5, 5, 5, 5, 5, 5, 5, 5, 5, 5, 5, 6, 6, 6, 6, 6, 6, 6, 6, 6, 6, 6, 6, 6, 6, 6, 6, 6, 6, 6, 6, 6],
   [0, 1, 2, 2, 3, 3, 3, 3, 3, 4, 4, 4, 4, 4, 4, 4, 4, 4, 4, 4, 5, 5, 5, 5, 5, 5, 5, 5, 5, 5, 5, 5, 5, 5, 5, 5, 5, 5, 5, 5, 5, 6, 6, 6, 6, 6, 6, 6, 6, 6, 6, 6, 6, 6, 6, 6, 6, 6, 6, 6, 6, 6, 6, 6],
   [0, 1, 2, 2, 3, 3, 3, 3, 3, 4, 4, 4, 4, 4, 4, 4, 4, 4, 4, 5, 5, 5, 5, 5, 5, 5, 5, 5, 5, 5, 5, 5, 5, 5, 5, 5, 5, 5, 5, 6, 6, 6, 6, 6, 6, 6, 6, 6, 6, 6, 6, 6, 6, 6, 6, 6, 6, 6, 6, 6, 6, 6, 6, 6],
   [0, 1, 2, 2, 3, 3, 3, 3, 3, 4, 4, 4, 4, 4, 4, 4, 4, 4, 5, 5, 5, 5, 5, 5, 5, 5, 5, 5, 5, 5, 5, 5, 5, 5, 5, 5, 5, 6, 6, 6, 6, 6, 6, 6, 6, 6, 6, 6, 6, 6, 6, 6, 6, 6, 6, 6, 6, 6, 6, 6, 6, 6, 6, 6],
   [0, 1, 2, 2, 3, 3, 3, 3, 3, 4, 4, 4, 4, 4, 4, 4, 4, 4, 5, 5, 5, 5, 5, 5, 5, 5, 5, 5, 5, 5, 5, 5, 5, 5, 5, 5, 6, 6, 6, 6, 6, 6, 6, 6, 6, 6, 6, 6, 6, 6, 6, 6, 6, 6, 6, 6, 6, 6, 6, 6, 6, 6, 6, 6],
   [0, 1, 2, 2, 3, 3, 3, 3, 4, 4, 4, 4, 4, 4, 4, 4, 4, 5, 5, 5, 5, 5, 5, 5, 5, 5, 5, 5, 5, 5, 5, 5, 5, 5, 6, 6, 6, 6, 6, 6, 6, 6, 6, 6, 6, 6, 6, 6, 6, 6, 6, 6, 6, 6, 6, 6, 6, 6, 6, 6, 6, 6, 6, 6],
   [0, 1, 2, 2, 3, 3, 3, 3, 4, 4, 4, 4, 4, 4, 4, 4, 4, 5, 5, 5, 5, 5, 5, 5, 5, 5, 5, 5, 5, 5, 5, 5, 5, 6, 6, 6, 6, 6, 6, 6, 6, 6, 6, 6, 6, 6, 6, 6, 6, 6, 6, 6, 6, 6, 6, 6, 6, 6, 6, 6, 6, 6, 6, 6],
   [0, 1, 2, 2, 3, 3, 3, 3, 4, 4, 4, 4, 4, 4, 4, 4, 5, 5, 5, 5, 5, 5, 5, 5, 5, 5, 5, 5, 5, 5, 5, 5, 6, 6, 6, 6, 6, 6, 6, 6, 6, 6, 6, 6, 6, 6, 6, 6, 6, 6, 6, 6, 6, 6, 6, 6, 6, 6, 6, 6, 6, 6, 7, 7],
   [0, 1, 2, 2, 3, 3, 3, 3, 4, 4, 4, 4, 4, 4, 4, 4, 5, 5, 5, 5, 5, 5, 5, 5, 5, 5, 5, 5, 5, 5, 5, 6, 6, 6, 6, 6, 6, 6, 6, 6, 6, 6, 6, 6, 6, 6, 6, 6, 6, 6, 6, 6, 6, 6, 6, 6, 6, 6, 6, 6, 7, 7, 7, 7]]

/-- `LMR_TABLE[d][m]` lookup. -/
def lmrAt (d m : ℕ) : ℕ := (lmrTableData.getD d []).getD m 0

/-- Result of the alpha-beta move loop: running best score and move,
final window, and the threaded object and state. -/
structure ABOut where
  best : ℚ
  bm : Option String
  alpha : ℚ
  beta : ℚ
  obj : ChessObj
  st : SearchSt

/-- History-table increment `_histTable[hk] = (_histTable[hk] || 0) + d`. -/
def histBump (h : List (String × ℕ)) (k : String) (d : ℕ) : List (String × ℕ) :=
  match alGet h k with
  | some v => alSet h k (v + d)
  | none => alSet h k d

/-- Beta-cutoff bookkeeping for a quiet move: killer insertion
(two-slot LRU on the `from+to` key), history `+= depth²`, and the
countermove entry for the parent move. -/
def cutoffUpdate (st : SearchSt) (ply : ℕ) (mv : MoveV)
    (prevMoveKey : Option String) (depth : ℕ) : SearchSt :=
  let kk := moveKeyOf mv
  let kp := (alGet st.killers ply).getD (none, none)
  let kp' := if kp.1 ≠ some kk then (some kk, kp.1) else kp
  let hk := histKeyOf mv
  let st := { st with
    killers := alSet st.killers ply kp',
    hist := histBump st.hist hk (depth * depth) }
  match prevMoveKey with
  | some pk => { st with counter := alSet st.counter pk hk }
  | none => st

/-- The alpha-beta move loop (`for (let mi = 0; ...)`), with `self`
the recursive alpha-beta call one fuel level down.  Carries the loop
variables `alpha`, `beta`, `best`, `bestMoveSoFar`, `searchedFirst`
and `quietSearched`. -/
def abLoop
    (self : ChessObj → ℕ → ℚ → ℚ → Bool → ℕ → SearchSt →
      Option (ℚ × ChessObj × SearchSt))
    (depth : ℕ) (maximizing : Bool) (ply : ℕ) (inCheckNow : Bool)
    (staticEval : Option ℚ) (prevMoveKey : Option String) :
    List (MoveV × GTree) → ℕ → ℚ → ℚ → ℚ → Option String → Bool → ℕ →
    ChessObj → SearchSt → Option ABOut
  | [], _, alpha, beta, best, bm, _, _, obj, st =>
      some ⟨best, bm, alpha, beta, obj, st⟩
  | (mv, child) :: rest, mi, alpha, beta, best, bm, sf, qs, obj, st =>
      let isQuiet : Bool := decide (mv.captured = none ∧ mv.promotion = none)
      -- Futility pruning for quiet moves at depth ≤ 3
      let futSkip : Bool :=
        match staticEval with
        | some se =>
            isQuiet &&
            (if maximizing then decide (se + FUTILITY_MARGIN.getD depth 0 ≤ alpha)
             else decide (beta ≤ se - FUTILITY_MARGIN.getD depth 0))
        | none => false
      if futSkip then
        abLoop self depth maximizing ply inCheckNow staticEval prevMoveKey
          rest (mi + 1) alpha beta best bm sf qs obj st
      else
        -- Late-move pruning at depth ≤ 2 (counts quiet moves after the first)
        let lmp : Bool × ℕ :=
          if ¬inCheckNow ∧ depth ≤ 2 ∧ isQuiet ∧ sf then
            let q := qs + 1
            (decide (LMP_THRESHOLD.getD depth 0 < q), q)
          else (false, qs)
        if lmp.1 then
          abLoop self depth maximizing ply inCheckNow staticEval prevMoveKey
            rest (mi + 1) alpha beta best bm sf lmp.2 obj st
        else
          let st := { st with moveStack := alSet st.moveStack ply (histKeyOf mv) }
          let obj1 := objMove obj child
          let givesCheck := child.check
          let newDepth := depth - 1
          let searched : Option (ℚ × ChessObj × SearchSt) :=
            if ¬sf then
              -- PV move: full-window search
              self obj1 newDepth alpha beta (!maximizing) (ply + 1) st
            else if 2 ≤ mi ∧ 3 ≤ depth ∧ isQuiet ∧ ¬givesCheck ∧ ¬inCheckNow then
              -- LMR + PVS null window at reduced depth
              let r := min newDepth (lmrAt (min 31 depth) (min 63 mi))
              let reducedDepth := newDepth - r
              let nullLo := if maximizing then alpha else beta - 1
              let nullHi := if maximizing then alpha + 1 else beta
              match self obj1 reducedDepth nullLo nullHi (!maximizing) (ply + 1) st with
              | none => none
              | some (s1, o1, st1) =>
                  if alpha < s1 ∧ s1 < beta then
                    self o1 newDepth alpha beta (!maximizing) (ply + 1) st1
                  else some (s1, o1, st1)
            else
              -- PVS null window for subsequent non-LMR moves
              let nullLo := if maximizing then alpha else beta - 1
              let nullHi := if maximizing then alpha + 1 else beta
              match self obj1 newDepth nullLo nullHi (!maximizing) (ply + 1) st with
              | none => none
              | some (s1, o1, st1) =>
                  if alpha < s1 ∧ s1 < beta then
                    self o1 newDepth alpha beta (!maximizing) (ply + 1) st1
                  else some (s1, o1, st1)
          match searched with
          | none => none
          | some (score, obj2, st2) =>
              let obj3 := objUndo obj2
              if maximizing then
                let bb := if best < score then (score, some (moveKeyOf mv)) else (best, bm)
                let as3 : ℚ × SearchSt :=
                  if alpha < score then
                    (score,
                     if isQuiet then { st2 with hist := histBump st2.hist (histKeyOf mv) depth }
                     else st2)
                  else (alpha, st2)
                if beta ≤ as3.1 then
                  let st4 := if isQuiet then cutoffUpdate as3.2 ply mv prevMoveKey depth
                             else as3.2
                  some ⟨bb.1, bb.2, as3.1, beta, obj3, st4⟩
                else
                  abLoop self depth maximizing ply inCheckNow staticEval prevMoveKey
                    rest (mi + 1) as3.1 beta bb.1 bb.2 true lmp.2 obj3 as3.2
              else
                let bb := if score < best then (score, some (moveKeyOf mv)) else (best, bm)
                let bs3 : ℚ × SearchSt :=
                  if score < beta then
                    (score,
                     if isQuiet then { st2 with hist := histBump st2.hist (histKeyOf mv) depth }
                     else st2)
                  else (beta, st2)
                if bs3.1 ≤ alpha then
                  let st4 := if isQuiet then cutoffUpdate bs3.2 ply mv prevMoveKey depth
                             else bs3.2
                  some ⟨bb.1, bb.2, alpha, bs3.1, obj3, st4⟩
                else
                  abLoop self depth maximizing ply inCheckNow staticEval prevMoveKey
                    rest (mi + 1) alpha bs3.1 bb.1 bb.2 true lmp.2 obj3 bs3.2

/-- `alphaBeta(chess, depth, alpha, beta, maximizing, ply)`. -/
def alphaBeta : ℕ → ChessObj → ℕ → ℚ → ℚ → Bool → ℕ → SearchSt →
    Option (ℚ × ChessObj × SearchSt)
  | 0, _, _, _, _, _, _, _ => none
  | fuel + 1, obj, depth, alpha0, beta0, maximizing, ply, st =>
      let st := { st with nodes := st.nodes + 1 }
      -- Mate distance pruning
      let alpha := max alpha0 (-(30000 - (ply : ℚ)))
      let beta := min beta0 (30000 - (ply : ℚ))
      if beta ≤ alpha then some (alpha, obj, st)
      else
        let fen := obj.cur.fen
        match ttGet st.tt fen depth alpha beta with
        | some v => some (v, obj, st)
        | none =>
            if depth = 0 then quiescence fuel obj alpha beta maximizing st
            else if obj.cur.gameOver then some (evaluate obj.cur.ep false, obj, st)
            else
              let rawMoves := obj.cur.moves
              if rawMoves.isEmpty then some (evaluate obj.cur.ep false, obj, st)
              else
                let inCheckNow := obj.cur.check
                -- Null-move pruning (R = 3): the separate `new Chess(nullFen)`
                -- object starts with an empty undo history
                let nullRes : Option ((ℚ × SearchSt) ⊕ SearchSt) :=
                  if ¬inCheckNow ∧ 4 ≤ depth then
                    match obj.cur.nullMv with
                    | some nt =>
                        if !nt.check then
                          match alphaBeta fuel ⟨nt, []⟩ (depth - 1 - 3) alpha beta
                              (!maximizing) (ply + 1) st with
                          | none => none
                          | some (ns, _, st') =>
                              if maximizing ∧ beta ≤ ns then some (Sum.inl (beta, st'))
                              else if ¬maximizing ∧ ns ≤ alpha then some (Sum.inl (alpha, st'))
                              else some (Sum.inr st')
                        else some (Sum.inr st)
                    | none => some (Sum.inr st)
                  else some (Sum.inr st)
                match nullRes with
                | none => none
                | some (Sum.inl (v, st')) => some (v, obj, st')
                | some (Sum.inr st) =>
                    -- Razoring at depth 1-2 (maximizing branch only) and the
                    -- static eval shared with futility pruning
                    let staticEval : Option ℚ :=
                      if ¬inCheckNow ∧ depth ≤ 3 then some (evaluate obj.cur.ep false)
                      else none
                    let razor : Option ((ℚ × ChessObj × SearchSt) ⊕ (ChessObj × SearchSt)) :=
                      match staticEval with
                      | some se =>
                          if maximizing ∧ 1 ≤ depth ∧ depth ≤ 2 ∧
                              se + RAZOR_MARGIN.getD depth 0 < alpha then
                            match quiescence fuel obj (alpha - 1) alpha maximizing st with
                            | none => none
                            | some (q, obj', st') =>
                                if q < alpha then some (Sum.inl (q, obj', st'))
                                else some (Sum.inr (obj', st'))
                          else some (Sum.inr (obj, st))
                      | none => some (Sum.inr (obj, st))
                    match razor with
                    | none => none
                    | some (Sum.inl r) => some r
                    | some (Sum.inr (obj, st)) =>
                        let prevMoveKey :=
                          if 0 < ply then alGet st.moveStack (ply - 1) else none
                        let ttMove := ttGetMove st.tt fen
                        let moves := orderMoves rawMoves st ply prevMoveKey ttMove
                        let origAlpha := alpha
                        let best0 : ℚ := if maximizing then -INFINITY else INFINITY
                        match abLoop (alphaBeta fuel) depth maximizing ply inCheckNow
                            staticEval prevMoveKey moves 0 alpha beta best0 none false 0
                            obj st with
                        | none => none
                        | some out =>
                            let flag :=
                              if out.beta ≤ out.best then TTFlag.LOWER
                              else if out.best ≤ origAlpha then TTFlag.UPPER
                              else TTFlag.EXACT
                            some (out.best, out.obj,
                              { out.st with
                                tt := ttSet out.st.tt fen depth out.best flag out.bm })

/-- One root line `{move, score}` returned by `searchRoot`. -/
structure RLine where
  move : MoveV
  score : ℚ
deriving DecidableEq, Repr

/-- History gravity at the start of a root search: every entry is
halved (`>> 1`) and zero entries are dropped, preserving key order. -/
def gravityHist (h : List (String × ℕ)) : List (String × ℕ) :=
  h.filterMap fun kv =>
    let v := kv.2 / 2
    if v ≠ 0 then some (kv.1, v) else none

/-- The type of the search oracle the deepening loop drives: iteration
number, window and threaded object/state (instantiated by
`searchRoot` with `alphaBeta(chess, d - 1, lo, hi, !max, 0)`). -/
def SROracle : Type :=
  ℕ → ℚ → ℚ → ChessObj → SearchSt → Option (ℚ × ChessObj × SearchSt)

/-- One iteration of the aspiration cascade: full window at `d = 1`;
for `d ≥ 2` the window `[prev−50, prev+50]`, on a miss
(`s ≤ lo || s ≥ hi`) the window `[prev−150, prev+150]`, and on a
second miss the full window (`ASP_DELTA = 50`). -/
def aspStep (sr : SROracle) (d : ℕ) (prev : ℚ) (obj : ChessObj) (st : SearchSt) :
    Option (ℚ × ChessObj × SearchSt) :=
  if 1 < d then
    let lo := prev - 50
    let hi := prev + 50
    match sr d lo hi obj st with
    | none => none
    | some (s, obj1, st1) =>
        if s ≤ lo ∨ hi ≤ s then
          let lo2 := prev - 150
          let hi2 := prev + 150
          match sr d lo2 hi2 obj1 st1 with
          | none => none
          | some (s2, obj2, st2) =>
              if s2 ≤ lo2 ∨ hi2 ≤ s2 then sr d (-INFINITY) INFINITY obj2 st2
              else some (s2, obj2, st2)
        else some (s, obj1, st1)
  else sr d (-INFINITY) INFINITY obj st

/-- The per-root-move iterative-deepening loop
(`for (let d = 1; d <= depth; d++)`), with early abort once
`|score| ≥ 29000`.  `rem` counts the remaining iterations, `d` is the
current iteration number, `score`/`prev` the loop variables
(both start at 0). -/
def idGo (sr : SROracle) : ℕ → ℕ → ℚ → ℚ → ChessObj → SearchSt →
    Option (ℚ × ChessObj × SearchSt)
  | 0, _, score, _, obj, st => some (score, obj, st)
  | rem + 1, d, _, prev, obj, st =>
      match aspStep sr d prev obj st with
      | none => none
      | some (s, obj1, st1) =>
          if 29000 ≤ |s| then some (s, obj1, st1)
          else idGo sr rem (d + 1) s s obj1 st1

/-- The root-move loop of `searchRoot`: make the move, run the
deepening loop from the child, undo, and record
`{move, score: max ? score : -score}`. -/
def srLoop (fuel : ℕ) (maxB : Bool) (depth : ℕ) :
    List (MoveV × GTree) → List RLine → ChessObj → SearchSt →
    Option (List RLine × ChessObj × SearchSt)
  | [], results, obj, st => some (results, obj, st)
  | (mv, child) :: rest, results, obj, st =>
      let obj1 := objMove obj child
      match idGo (fun d lo hi o s => alphaBeta fuel o (d - 1) lo hi (!maxB) 0 s)
          depth 1 0 0 obj1 st with
      | none => none
      | some (score, obj2, st2) =>
          let obj3 := objUndo obj2
          srLoop fuel maxB depth rest
            (results ++ [⟨mv, if maxB then score else -score⟩]) obj3 st2

/-- `searchRoot(fen, depth, multiPV)`: reset the per-search heuristic
state (killers, move stack, node counter; history decayed by gravity;
countermove table and TT preserved), search every root move with
iterative deepening + aspiration windows, sort descending by score
and keep the top `multiPV` lines. -/
def searchRoot (fuel : ℕ) (t : GTree) (depth multiPV : ℕ) (st0 : SearchSt) :
    Option (List RLine × ChessObj × SearchSt) :=
  let obj : ChessObj := ⟨t, []⟩
  let maxB : Bool := decide (t.ep.turn = PColor.w)
  let st : SearchSt :=
    { st0 with nodes := 0, killers := [], moveStack := [], hist := gravityHist st0.hist }
  let rawMoves := t.moves
  if rawMoves.isEmpty then some ([], obj, st)
  else
    match srLoop fuel maxB depth rawMoves [] obj st with
    | none => none
    | some (results, obj', st') =>
        some ((sortRanked (fun l => l.score) results).take multiPV, obj', st')

/-! ## The concurrent analysis coordinator (`analysis.js`)

`PlanQueue.generate` is embedded over the same game-tree oracle.  The
coordinator's `start` is embedded over the sequence of task
settlements: the control context is cooperatively single-threaded, so
one run of `start` is a fold of the `.then` / `.catch` handlers over
the settlement order, followed by the final emission.  Wall-clock
derived stats (`nps`, `elapsed`) and the rebuilt `lines` array carry
no information about emission counts and are omitted from the
emission record. -/

/-- One generated analysis task. -/
structure Task where
  tfen : String
  depth : ℕ
  multiPV : ℕ
  taskId : String
  rootMove : Option String
  moves : List String
deriving DecidableEq, Repr

/-- JS `Math.ceil(a / k)` for non-negative integers. -/
def ceilDivNat (a k : ℕ) : ℕ := (a + k - 1) / k

/-- The level-1 task record of a root move (`taskId = "l1-<id>"`). -/
def l1TaskOf (maxDepth id : ℕ) (rm : MoveV) (child : GTree) : Task :=
  { tfen := child.fen, depth := max 1 (maxDepth - 1),
    multiPV := min 4 child.moves.length, taskId := "l1-" ++ toString id,
    rootMove := some rm.san, moves := [rm.san] }

/-- The level-2 task record of one reply (`taskId = "l2-<id>"`). -/
def l2TaskOf (maxDepth id : ℕ) (rmSan : String) (rp : MoveV) (gchild : GTree) : Task :=
  { tfen := gchild.fen, depth := max 1 (maxDepth - 2), multiPV := 1,
    taskId := "l2-" ++ toString id, rootMove := some rmSan,
    moves := [rmSan, rp.san] }

/-- The inner replies loop of the generator: one level-2 task per
reply of the slice, stopping at `maxPlans`. -/
def genReplies (maxPlans maxDepth : ℕ) (rmSan : String) :
    List (MoveV × GTree) → List Task → ℕ → List Task × ℕ
  | [], tasks, id => (tasks, id)
  | (rp, gchild) :: rest, tasks, id =>
      if maxPlans ≤ tasks.length then (tasks, id)
      else
        genReplies maxPlans maxDepth rmSan rest
          (tasks ++ [l2TaskOf maxDepth id rmSan rp gchild]) (id + 1)

/-- The outer root-move loop of the generator: a level-1 task for the
root move, then level-2 tasks for the first
`ceil((maxPlans - tasks.length) / rootMoveCount)` replies. -/
def genGo (maxPlans maxDepth k : ℕ) :
    List (MoveV × GTree) → List Task → ℕ → List Task
  | [], tasks, _ => tasks
  | (rm, child) :: rest, tasks, id =>
      if maxPlans ≤ tasks.length then tasks
      else
        let tasks1 := tasks ++ [l1TaskOf maxDepth id rm child]
        let cnt := ceilDivNat (maxPlans - tasks1.length) k
        let ti := genReplies maxPlans maxDepth rm.san (child.moves.take cnt) tasks1 (id + 1)
        genGo maxPlans maxDepth k rest ti.1 ti.2

namespace PlanQueue

/-- `PlanQueue.generate(fen, maxPlans, maxDepth)`. -/
def generate (t : GTree) (maxPlans maxDepth : ℕ) : List Task :=
  let rootMoves := t.moves
  if rootMoves.isEmpty then []
  else
    genGo maxPlans maxDepth rootMoves.length rootMoves
      [{ tfen := t.fen, depth := maxDepth, multiPV := min 8 rootMoves.length,
         taskId := "root", rootMove := none, moves := [] }]
      1

end PlanQueue

/-- One coordinator emission, restricted to the fields relevant to
task accounting: `nodes`, `tasks = _results.size`,
`total = maxPlans`, and the `final` flag. -/
structure CoordEmit where
  nodes : ℕ
  tasks : ℕ
  total : ℕ
  final : Bool
deriving DecidableEq, Repr

/-- One run of `AnalysisCoordinator.start` over a given settlement
order.  An event `(taskId, some n)` is a fulfilled task whose result
carried `n` nodes (the `.then` handler records it in `_results`, adds
the nodes and emits); `(taskId, none)` is a rejected task (the
`.catch(() => {})` handler does nothing).  After all events settle,
`_emit(true)` produces the final emission.  `running` stays true for
the whole run (no `stop`), so the `if (!this.running) return` guard
never fires. -/
def runStart (maxPlans : ℕ) : List (String × Option ℕ) → List (String × ℕ) → ℕ →
    List CoordEmit
  | [], results, totalNodes =>
      [⟨totalNodes, results.length, maxPlans, true⟩]
  | ev :: rest, results, totalNodes =>
      match ev.2 with
      | some nds =>
          let results' := alSet results ev.1 nds
          let total' := totalNodes + nds
          ⟨total', results'.length, maxPlans, false⟩ :: runStart maxPlans rest results' total'
      | none => runStart maxPlans rest results totalNodes

/-! ## Auxiliary definitions used by the claim statements

Claim-side reference definitions (written from the specification's
words, for refinement comparisons), traced variants of the deepening
loop whose traces record the `alphaBeta` windows actually requested,
the mobility-scrubbing functions, the color-mirror operation, and the
concrete positions used as inputs. -/

/-- The deepening loop with a trace of the oracle calls it makes:
each entry `(d, lo, hi)` is one `alphaBeta` invocation (iteration
number and window).  The score/object/state components compute
exactly as `aspStep` does. -/
def aspStepT (sr : SROracle) (d : ℕ) (prev : ℚ) (obj : ChessObj) (st : SearchSt) :
    Option ((ℚ × ChessObj × SearchSt) × List (ℕ × ℚ × ℚ)) :=
  if 1 < d then
    let lo := prev - 50
    let hi := prev + 50
    match sr d lo hi obj st with
    | none => none
    | some (s, obj1, st1) =>
        if s ≤ lo ∨ hi ≤ s then
          let lo2 := prev - 150
          let hi2 := prev + 150
          match sr d lo2 hi2 obj1 st1 with
          | none => none
          | some (s2, obj2, st2) =>
              if s2 ≤ lo2 ∨ hi2 ≤ s2 then
                match sr d (-INFINITY) INFINITY obj2 st2 with
                | none => none
                | some r3 =>
                    some (r3, [(d, lo, hi), (d, lo2, hi2), (d, -INFINITY, INFINITY)])
              else some ((s2, obj2, st2), [(d, lo, hi), (d, lo2, hi2)])
        else some ((s, obj1, st1), [(d, lo, hi)])
  else
    match sr d (-INFINITY) INFINITY obj st with
    | none => none
    | some r => some (r, [(d, -INFINITY, INFINITY)])

/-- Traced version of `idGo` (the traces of all iterations are
concatenated in order). -/
def idGoT (sr : SROracle) : ℕ → ℕ → ℚ → ℚ → ChessObj → SearchSt →
    Option ((ℚ × ChessObj × SearchSt) × List (ℕ × ℚ × ℚ))
  | 0, _, score, _, obj, st => some ((score, obj, st), [])
  | rem + 1, d, _, prev, obj, st =>
      match aspStepT sr d prev obj st with
      | none => none
      | some ((s, obj1, st1), calls) =>
          if 29000 ≤ |s| then some ((s, obj1, st1), calls)
          else
            match idGoT sr rem (d + 1) s s obj1 st1 with
            | none => none
            | some (r, calls') => some (r, calls ++ calls')

/-- The window list the specification prescribes for one iteration:
the full window at `d = 1`; for `d ≥ 2` the narrow window
`[prev−50, prev+50]`, then the widened `[prev−150, prev+150]`, then
the full window. -/
def specWindows (d : ℕ) (prev : ℚ) : List (ℚ × ℚ) :=
  if d = 1 then [(-INFINITY, INFINITY)]
  else [(prev - 50, prev + 50), (prev - 150, prev + 150), (-INFINITY, INFINITY)]

/-- Run the windows of one iteration as the specification words it:
try each window in turn, moving to the next one exactly on a
fail-low (`score ≤ lo`) or fail-high (`score ≥ hi`); the last window
is accepted unconditionally. -/
def specTry (sr : SROracle) (d : ℕ) : List (ℚ × ℚ) → ChessObj → SearchSt →
    Option ((ℚ × ChessObj × SearchSt) × List (ℕ × ℚ × ℚ))
  | [], _, _ => none
  | [(lo, hi)] , obj, st =>
      match sr d lo hi obj st with
      | none => none
      | some r => some (r, [(d, lo, hi)])
  | (lo, hi) :: w :: ws, obj, st =>
      match sr d lo hi obj st with
      | none => none
      | some (s, obj1, st1) =>
          if s ≤ lo ∨ hi ≤ s then
            match specTry sr d (w :: ws) obj1 st1 with
            | none => none
            | some (r, calls) => some (r, (d, lo, hi) :: calls)
          else some ((s, obj1, st1), [(d, lo, hi)])

/-- The iterative-deepening driver exactly as the specification
describes it: iterations `d = 1, 2, ...` (at most `rem` of them), the
window cascade of `specWindows`, the previous iteration's score as
the aspiration center, and an abort as soon as `|score| ≥ 29000`. -/
def specDeepen (sr : SROracle) : ℕ → ℕ → ℚ → ℚ → ChessObj → SearchSt →
    Option ((ℚ × ChessObj × SearchSt) × List (ℕ × ℚ × ℚ))
  | 0, _, score, _, obj, st => some ((score, obj, st), [])
  | rem + 1, d, _, prev, obj, st =>
      match specTry sr d (specWindows d prev) obj st with
      | none => none
      | some ((s, obj1, st1), calls) =>
          if 29000 ≤ |s| then some ((s, obj1, st1), calls)
          else
            match specDeepen sr rem (d + 1) s s obj1 st1 with
            | none => none
            | some (r, calls') => some (r, calls ++ calls')

/-- The root-move loop with the side-to-move sign flip removed: it
records the raw (white-perspective) deepening scores. -/
def srLoopRaw (fuel : ℕ) (maxB : Bool) (depth : ℕ) :
    List (MoveV × GTree) → List RLine → ChessObj → SearchSt →
    Option (List RLine × ChessObj × SearchSt)
  | [], results, obj, st => some (results, obj, st)
  | (mv, child) :: rest, results, obj, st =>
      let obj1 := objMove obj child
      match idGo (fun d lo hi o s => alphaBeta fuel o (d - 1) lo hi (!maxB) 0 s)
          depth 1 0 0 obj1 st with
      | none => none
      | some (score, obj2, st2) =>
          let obj3 := objUndo obj2
          srLoopRaw fuel maxB depth rest (results ++ [⟨mv, score⟩]) obj3 st2

/-- Flip a line's score to the root side's perspective. -/
def flipLine (maxB : Bool) (l : RLine) : RLine :=
  ⟨l.move, if maxB then l.score else -l.score⟩

/-- Zero out the two mobility oracle fields of a position. -/
def epScrubMob (ep : EvalPos) : EvalPos :=
  { ep with movesCount := 0, oppMovesCount := 0 }

mutual

/-- Zero out the mobility oracle fields of every node of a tree. -/
def GTree.scrubMob : GTree → GTree
  | .node ep fen c g mvs nl =>
      .node (epScrubMob ep) fen c g (scrubMobL mvs) (scrubMobO nl)

/-- `GTree.scrubMob` mapped over a move list. -/
def scrubMobL : List (MoveV × GTree) → List (MoveV × GTree)
  | [] => []
  | (m, t) :: rest => (m, GTree.scrubMob t) :: scrubMobL rest

/-- `GTree.scrubMob` mapped over an optional node. -/
def scrubMobO : Option GTree → Option GTree
  | none => none
  | some t => some (GTree.scrubMob t)

end

/-- Scrub the mobility fields throughout a `chess` object. -/
def objScrub (o : ChessObj) : ChessObj :=
  ⟨o.cur.scrubMob, o.undoStack.map GTree.scrubMob⟩

/-- Swap a piece's color. -/
def mirrorPiece (pc : Piece) : Piece :=
  ⟨(match pc.color with | PColor.w => PColor.b | PColor.b => PColor.w), pc.ptype⟩

/-- The color-mirror of a board: flip vertically (reverse the rows)
and swap every piece's color. -/
def mirrorBoard (bd : Board) : Board :=
  (List.reverse bd).map fun row => row.map (Option.map mirrorPiece)

/-- The color-mirror of a position (swap all piece colors, flip the
board vertically, swap the side to move).  The terminal predicates
and the two legal-move counts of the mirrored position equal the
original's by the color symmetry of the rules of chess. -/
def colorMirror (ep : EvalPos) : EvalPos :=
  { board := mirrorBoard ep.board,
    turn := (match ep.turn with | PColor.w => PColor.b | PColor.b => PColor.w),
    inCheckmate := ep.inCheckmate, inStalemate := ep.inStalemate,
    inDraw := ep.inDraw, inThreefold := ep.inThreefold,
    insufficientMaterial := ep.insufficientMaterial,
    movesCount := ep.movesCount, oppMovesCount := ep.oppMovesCount }

/-! ### Concrete positions

`cexTree` is the position `8/8/8/8/8/6pk/5p2/7K b - - 0 1` (white:
Kh1; black: Kh3, Pg3, Pf2; black to move) as a game tree to depth 2.
Black's seven legal moves are g2# (mate), Kg4, Kh4, f1=Q# (mate),
f1=R# (mate), f1=B (stalemating white) and f1=N (stalemating white).
Nodes beyond the horizon a depth-1 search can visit (the children of
the quiet replies, which quiescence filters out since they are
neither captures nor promotions) are inert `stubLeaf` placeholders
that no embedded function ever reads. -/

/-- Square content shorthand. -/
def wKp : Option Piece := some ⟨PColor.w, PType.k⟩

/-- Black king square. -/
def bKp : Option Piece := some ⟨PColor.b, PType.k⟩

/-- Black pawn square. -/
def bPp : Option Piece := some ⟨PColor.b, PType.p⟩

/-- Black queen square. -/
def bQp : Option Piece := some ⟨PColor.b, PType.q⟩

/-- Black rook square. -/
def bRp : Option Piece := some ⟨PColor.b, PType.r⟩

/-- Black bishop square. -/
def bBp : Option Piece := some ⟨PColor.b, PType.b⟩

/-- Black knight square. -/
def bNp : Option Piece := some ⟨PColor.b, PType.n⟩

/-- White queen square. -/
def wQp : Option Piece := some ⟨PColor.w, PType.q⟩

/-- An empty board row. -/
def emptyRow : List (Option Piece) :=
  [none, none, none, none, none, none, none, none]

/-- Fresh per-worker search state (empty tables, zero node counter). -/
def initSt : SearchSt := ⟨0, [], [], [], [], ([] : TTMap)⟩

/-- Inert position data for nodes no embedded function reads. -/
def stubEp : EvalPos :=
  { board := [], turn := PColor.w, inCheckmate := false, inStalemate := false,
    inDraw := false, inThreefold := false, insufficientMaterial := false,
    movesCount := 0, oppMovesCount := 0 }

/-- An unread beyond-the-horizon node. -/
def stubLeaf : GTree := .node stubEp "" false false [] none

/-- Root position `8/8/8/8/8/6pk/5p2/7K b - - 0 1`. -/
def epRoot : EvalPos :=
  { board := [emptyRow, emptyRow, emptyRow, emptyRow, emptyRow,
      [none, none, none, none, none, none, bPp, bKp],
      [none, none, none, none, none, bPp, none, none],
      [none, none, none, none, none, none, none, wKp]],
    turn := PColor.b, inCheckmate := false, inStalemate := false,
    inDraw := false, inThreefold := false, insufficientMaterial := false,
    movesCount := 7, oppMovesCount := 0 }

/-- Position after 1...g2#: white is checkmated. -/
def epG2child : EvalPos :=
  { board := [emptyRow, emptyRow, emptyRow, emptyRow, emptyRow,
      [none, none, none, none, none, none, none, bKp],
      [none, none, none, none, none, bPp, bPp, none],
      [none, none, none, none, none, none, none, wKp]],
    turn := PColor.w, inCheckmate := true, inStalemate := false,
    inDraw := false, inThreefold := false, insufficientMaterial := false,
    movesCount := 0, oppMovesCount := 11 }

/-- Position after 1...Kg4 (white to move, one legal move: Kg2). -/
def epKg4child : EvalPos :=
  { board := [emptyRow, emptyRow, emptyRow, emptyRow,
      [none, none, none, none, none, none, bKp, none],
      [none, none, none, none, none, none, bPp, none],
      [none, none, none, none, none, bPp, none, none],
      [none, none, none, none, none, none, none, wKp]],
    turn := PColor.w, inCheckmate := false, inStalemate := false,
    inDraw := false, inThreefold := false, insufficientMaterial := false,
    movesCount := 1, oppMovesCount := 12 }

/-- Position after 1...Kh4 (white to move, one legal move: Kg2). -/
def epKh4child : EvalPos :=
  { board := [emptyRow, emptyRow, emptyRow, emptyRow,
      [none, none, none, none, none, none, none, bKp],
      [none, none, none, none, none, none, bPp, none],
      [none, none, none, none, none, bPp, none, none],
      [none, none, none, none, none, none, none, wKp]],
    turn := PColor.w, inCheckmate := false, inStalemate := false,
    inDraw := false, inThreefold := false, insufficientMaterial := false,
    movesCount := 1, oppMovesCount := 9 }

/-- Position after 1...f1=Q#: white is checkmated. -/
def epF1Qchild : EvalPos :=
  { board := [emptyRow, emptyRow, emptyRow, emptyRow, emptyRow,
      [none, none, none, none, none, none, bPp, bKp],
      emptyRow,
      [none, none, none, none, none, bQp, none, wKp]],
    turn := PColor.w, inCheckmate := true, inStalemate := false,
    inDraw := false, inThreefold := false, insufficientMaterial := false,
    movesCount := 0, oppMovesCount := 12 }

/-- Position after 1...f1=R#: white is checkmated. -/
def epF1Rchild : EvalPos :=
  { board := [emptyRow, emptyRow, emptyRow, emptyRow, emptyRow,
      [none, none, none, none, none, none, bPp, bKp],
      emptyRow,
      [none, none, none, none, none, bRp, none, wKp]],
    turn := PColor.w, inCheckmate := true, inStalemate := false,
    inDraw := false, inThreefold := false, insufficientMaterial := false,
    movesCount := 0, oppMovesCount := 12 }

/-- Position after 1...f1=B: white is stalemated. -/
def epF1Bchild : EvalPos :=
  { board := [emptyRow, emptyRow, emptyRow, emptyRow, emptyRow,
      [none, none, none, none, none, none, bPp, bKp],
      emptyRow,
      [none, none, none, none, none, bBp, none, wKp]],
    turn := PColor.w, inCheckmate := false, inStalemate := true,
    inDraw := true, inThreefold := false, insufficientMaterial := false,
    movesCount := 0, oppMovesCount := 12 }

/-- Position after 1...f1=N: white is stalemated. -/
def epF1Nchild : EvalPos :=
  { board := [emptyRow, emptyRow, emptyRow, emptyRow, emptyRow,
      [none, none, none, none, none, none, bPp, bKp],
      emptyRow,
      [none, none, none, none, none, bNp, none, wKp]],
    turn := PColor.w, inCheckmate := false, inStalemate := true,
    inDraw := true, inThreefold := false, insufficientMaterial := false,
    movesCount := 0, oppMovesCount := 12 }

/-- The mating move 1...g2#. -/
def mvG2 : MoveV := ⟨"g3", "g2", PType.p, none, none, "g2#"⟩

/-- 1...Kg4. -/
def mvKg4 : MoveV := ⟨"h3", "g4", PType.k, none, none, "Kg4"⟩

/-- 1...Kh4. -/
def mvKh4 : MoveV := ⟨"h3", "h4", PType.k, none, none, "Kh4"⟩

/-- 1...f1=Q#. -/
def mvF1Q : MoveV := ⟨"f2", "f1", PType.p, none, some PType.q, "f1=Q#"⟩

/-- 1...f1=R#. -/
def mvF1R : MoveV := ⟨"f2", "f1", PType.p, none, some PType.r, "f1=R#"⟩

/-- 1...f1=B (stalemate). -/
def mvF1B : MoveV := ⟨"f2", "f1", PType.p, none, some PType.b, "f1=B"⟩

/-- 1...f1=N (stalemate). -/
def mvF1N : MoveV := ⟨"f2", "f1", PType.p, none, some PType.n, "f1=N"⟩

/-- White's only reply 2.Kg2 in the Kg4 line (quiet, so quiescence
never descends into it at depth 1). -/
def mvKg2w : MoveV := ⟨"h1", "g2", PType.k, none, none, "Kg2"⟩

/-- Game-tree node after 1...g2#. -/
def g2Child : GTree :=
  .node epG2child "8/8/8/8/8/7k/5pp1/7K w - - 0 2" true true [] none

/-- Game-tree node after 1...Kg4. -/
def kg4Child : GTree :=
  .node epKg4child "8/8/8/8/6k1/6p1/5p2/7K w - - 1 2" false false
    [(mvKg2w, stubLeaf)] none

/-- Game-tree node after 1...Kh4. -/
def kh4Child : GTree :=
  .node epKh4child "8/8/8/8/7k/6p1/5p2/7K w - - 1 2" false false
    [(mvKg2w, stubLeaf)] none

/-- Game-tree node after 1...f1=Q#. -/
def f1qChild : GTree :=
  .node epF1Qchild "8/8/8/8/8/6pk/8/5q1K w - - 0 2" true true [] none

/-- Game-tree node after 1...f1=R#. -/
def f1rChild : GTree :=
  .node epF1Rchild "8/8/8/8/8/6pk/8/5r1K w - - 0 2" true true [] none

/-- Game-tree node after 1...f1=B (stalemate, no legal white moves). -/
def f1bChild : GTree :=
  .node epF1Bchild "8/8/8/8/8/6pk/8/5b1K w - - 0 2" false true [] none

/-- Game-tree node after 1...f1=N (stalemate, no legal white moves). -/
def f1nChild : GTree :=
  .node epF1Nchild "8/8/8/8/8/6pk/8/5n1K w - - 0 2" false true [] none

/-- The black-to-move mate-in-one position as a game tree. -/
def cexTree : GTree :=
  .node epRoot "8/8/8/8/8/6pk/5p2/7K b - - 0 1" false false
    [(mvG2, g2Child), (mvKg4, kg4Child), (mvKh4, kh4Child),
     (mvF1Q, f1qChild), (mvF1R, f1rChild), (mvF1B, f1bChild), (mvF1N, f1nChild)]
    none

/-! ### The color-mirror pair for the evaluator symmetry claim

`P3` is `7k/8/8/8/Q7/8/8/7K w - - 0 1` (white: Qa4, Kh1; black: Kh8;
white to move; 24 legal moves, 3 for the synthetic flipped side) and
`P3m` is its color-mirror `7k/8/8/q7/8/8/8/7K b - - 0 1` (black: Qa5,
Kh8; white: Kh1; black to move).  The white queen stands on a4 where
`PST.q` reads 0, while the mirrored black queen on a5 is indexed with
the file flipped as well, reading the entry of h5, which is −5. -/

/-- `7k/8/8/8/Q7/8/8/7K w - - 0 1`. -/
def P3 : EvalPos :=
  { board := [[none, none, none, none, none, none, none, bKp],
      emptyRow, emptyRow, emptyRow,
      [wQp, none, none, none, none, none, none, none],
      emptyRow, emptyRow,
      [none, none, none, none, none, none, none, wKp]],
    turn := PColor.w, inCheckmate := false, inStalemate := false,
    inDraw := false, inThreefold := false, insufficientMaterial := false,
    movesCount := 24, oppMovesCount := 3 }

/-- The color-mirror of `P3`: black Qa5 and Kh8, white Kh1, black to
move (the mirrored position has the same two legal-move counts by the
color symmetry of chess). -/
def P3m : EvalPos :=
  { board := [[none, none, none, none, none, none, none, bKp],
      emptyRow, emptyRow,
      [bQp, none, none, none, none, none, none, none],
      emptyRow, emptyRow, emptyRow,
      [none, none, none, none, none, none, none, wKp]],
    turn := PColor.b, inCheckmate := false, inStalemate := false,
    inDraw := false, inThreefold := false, insufficientMaterial := false,
    movesCount := 24, oppMovesCount := 3 }

/-! ### Colliding FEN pair for the transposition table claim

The rolling hash is position-wise linear: the two-character segments
`"Qq"` and `"RR"` contribute equally (`81·31 + 113 = 82·31 + 82 =
2624`), so the two legal positions below (white Qa2 + black qb2
versus white Ra2 + Rb2, all else equal) hash to the same slot while
their FENs differ. -/

/-- `7k/8/8/8/8/8/Qq6/7K w - - 0 1`. -/
def fenQq : String := "7k/8/8/8/8/8/Qq6/7K w - - 0 1"

/-- `7k/8/8/8/8/8/RR6/7K w - - 0 1`. -/
def fenRR : String := "7k/8/8/8/8/8/RR6/7K w - - 0 1"

/-! ### The plan-generator input

`planTree` is `k7/8/2K5/8/8/8/8/8 b - - 0 1` (white Kc6, black Ka8,
black to move).  Black has exactly two legal moves, Ka7 and Kb8, and
white has exactly six legal replies after either.  The generator
reads only `fen` and `moves` of the nodes it visits, so the `ep`
components of this tree and the nodes after the second ply are inert
placeholders. -/

/-- Move 1...Ka7. -/
def mvKa7 : MoveV := ⟨"a8", "a7", PType.k, none, none, "Ka7"⟩

/-- Move 1...Kb8. -/
def mvKb8 : MoveV := ⟨"a8", "b8", PType.k, none, none, "Kb8"⟩

/-- A white king reply record. -/
def wkMove (a b s : String) : MoveV := ⟨a, b, PType.k, none, none, s⟩

/-- An unread grandchild node carrying its position's FEN. -/
def leafG (fen : String) : GTree := .node stubEp fen false false [] none

/-- Node after 1...Ka7 with white's six replies. -/
def ka7Child : GTree :=
  .node stubEp "8/k7/2K5/8/8/8/8/8 w - - 1 2" false false
    [(wkMove "c6" "b5" "Kb5", leafG "8/k7/8/1K6/8/8/8/8 b - - 2 2"),
     (wkMove "c6" "c5" "Kc5", leafG "8/k7/8/2K5/8/8/8/8 b - - 2 2"),
     (wkMove "c6" "c7" "Kc7", leafG "8/k1K5/8/8/8/8/8/8 b - - 2 2"),
     (wkMove "c6" "d5" "Kd5", leafG "8/k7/8/3K4/8/8/8/8 b - - 2 2"),
     (wkMove "c6" "d6" "Kd6", leafG "8/k7/3K4/8/8/8/8/8 b - - 2 2"),
     (wkMove "c6" "d7" "Kd7", leafG "8/k2K4/8/8/8/8/8/8 b - - 2 2")]
    none

/-- Node after 1...Kb8 with white's six replies. -/
def kb8Child : GTree :=
  .node stubEp "1k6/8/2K5/8/8/8/8/8 w - - 1 2" false false
    [(wkMove "c6" "b5" "Kb5", leafG "1k6/8/8/1K6/8/8/8/8 b - - 2 2"),
     (wkMove "c6" "b6" "Kb6", leafG "1k6/1K6/8/8/8/8/8/8 b - - 2 2"),
     (wkMove "c6" "c5" "Kc5", leafG "1k6/8/8/2K5/8/8/8/8 b - - 2 2"),
     (wkMove "c6" "d5" "Kd5", leafG "1k6/8/8/3K4/8/8/8/8 b - - 2 2"),
     (wkMove "c6" "d6" "Kd6", leafG "1k6/8/3K4/8/8/8/8/8 b - - 2 2"),
     (wkMove "c6" "d7" "Kd7", leafG "1k2K3/8/8/8/8/8/8/8 b - - 2 2")]
    none

/-- The plan-generator input position as a game tree. -/
def planTree : GTree :=
  .node stubEp "k7/8/2K5/8/8/8/8/8 b - - 0 1" false false
    [(mvKa7, ka7Child), (mvKb8, kb8Child)] none

/-! ### Reference shape of the plan generator

A direct functional description of what the generator emits, used to
characterize `PlanQueue.generate`: the root task, then one group per
root move in enumeration order — the move's `l1` task followed by its
`l2` tasks for the first `ceil((maxPlans − emitted) / k)` replies —
stopping at `maxPlans`. -/

/-- The level-2 tasks of a reply list, with consecutive ids. -/
def l2Tasks (maxDepth : ℕ) (rmSan : String) : List (MoveV × GTree) → ℕ → List Task
  | [], _ => []
  | (rp, gchild) :: rest, id =>
      l2TaskOf maxDepth id rmSan rp gchild :: l2Tasks maxDepth rmSan rest (id + 1)

/-- Per-root-move task groups: `count` tasks emitted so far, `id` the
running task-id counter. -/
def planSpecGo (maxPlans maxDepth k : ℕ) :
    List (MoveV × GTree) → ℕ → ℕ → List Task
  | [], _, _ => []
  | (rm, child) :: rest, count, id =>
      if maxPlans ≤ count then []
      else
        let cnt := ceilDivNat (maxPlans - (count + 1)) k
        let reps := child.moves.take cnt
        (l1TaskOf maxDepth id rm child :: l2Tasks maxDepth rm.san reps (id + 1)) ++
          planSpecGo maxPlans maxDepth k rest (count + 1 + reps.length)
            (id + 1 + reps.length)

/-- The full reference task list. -/
def planSpec (t : GTree) (maxPlans maxDepth : ℕ) : List Task :=
  if t.moves.isEmpty then []
  else
    { tfen := t.fen, depth := maxDepth, multiPV := min 8 t.moves.length,
      taskId := "root", rootMove := none, moves := [] } ::
      planSpecGo maxPlans maxDepth t.moves.length t.moves 1 1

/-! ## Theorems -/

theorem alGet_alSet_self {κ β : Type} [DecidableEq κ] (l : List (κ × β)) (k : κ) (v : β) :
    alGet (alSet l k v) k = some v := by
  induction l with
  | nil => simp [alSet, alGet]
  | cons kv rest ih =>
      by_cases h : kv.1 = k
      · obtain ⟨k0, v0⟩ := kv
        simp only at h
        simp [alSet, alGet, h]
      · obtain ⟨k0, v0⟩ := kv
        simp only at h
        simp [alSet, alGet, h, ih]

theorem alGet_alSet_ne {κ β : Type} [DecidableEq κ] (l : List (κ × β)) (k k' : κ) (v : β)
    (h : k' ≠ k) : alGet (alSet l k v) k' = alGet l k' := by
  induction l with
  | nil =>
      simp only [alSet, alGet]
      rw [if_neg (fun hh => h hh.symm)]
  | cons kv rest ih =>
      obtain ⟨k0, v0⟩ := kv
      by_cases hk : k0 = k
      · subst hk
        simp only [alSet, if_pos rfl, alGet]
        rw [if_neg (fun hh => h hh.symm), if_neg (fun hh => h hh.symm)]
      · simp only [alSet, if_neg hk, alGet]
        rw [ih]

theorem alSet_length_of_none {κ β : Type} [DecidableEq κ] (l : List (κ × β)) (k : κ) (v : β)
    (h : alGet l k = none) : (alSet l k v).length = l.length + 1 := by
  induction l with
  | nil => simp [alSet]
  | cons kv rest ih =>
      obtain ⟨k0, v0⟩ := kv
      by_cases hk : k0 = k
      · simp [alGet, hk] at h
      · simp only [alGet, hk, if_false] at h
        simp [alSet, hk, ih h]

/-- C1: `evaluate` returns the terminal-state shortcut before any
other term: on a checkmate position it returns −30000 if white is to
move and +30000 if black is to move, and on a stalemate,
insufficient-material (which the library reports through `in_draw`),
or threefold-repetition position it returns 0. -/
theorem claim1_terminal_shortcuts (ep : EvalPos) (skip : Bool)
    (hlib : ep.insufficientMaterial = true → ep.inDraw = true) :
    (ep.inCheckmate = true →
      evaluate ep skip = (if ep.turn = PColor.w then -30000 else 30000)) ∧
    (ep.inCheckmate = false →
      ep.inStalemate = true ∨ ep.inThreefold = true ∨ ep.inDraw = true ∨
        ep.insufficientMaterial = true →
      evaluate ep skip = 0) := by
  constructor
  · intro h
    rw [evaluate, if_pos h]
  · intro h hterm
    rw [evaluate, if_neg (by simp [h]), if_pos ?_]
    rcases hterm with h1 | h1 | h1 | h1 <;> simp [h1, hlib]

theorem claim1_witness :
    epG2child.inCheckmate = true ∧ evaluate epG2child false = -30000 ∧
    epF1Bchild.inCheckmate = false ∧ epF1Bchild.inStalemate = true ∧
    evaluate epF1Bchild false = 0 := by
  have h1 := (claim1_terminal_shortcuts epG2child false (by decide)).1 (by decide)
  have h2 := (claim1_terminal_shortcuts epF1Bchild false (by decide)).2 (by decide)
    (Or.inl (by decide))
  refine ⟨by decide, ?_, by decide, by decide, h2⟩
  rw [h1]
  decide

/-- C4 (amended): the probe returns a score only when the stored
entry's full FEN equals the probe FEN, its depth is at least the
requested depth, and the flag condition holds; a store writes the
slot iff it is empty or holds an entry of depth at most the new
depth; and immediately after a store with flag EXACT **that actually
wrote the slot**, a probe of the same signature with the full window
returns the stored score for every requested depth `d' ≤ d`.  (As
stated in the specification — without the written-the-slot proviso —
the last part is false; see the counterexample.) -/
theorem claim4_tt_contract :
    (∀ (t : TTMap) (fen : String) (d : ℕ) (a b s : ℚ),
      ttGet t fen d a b = some s →
      ∃ e, alGet t (ttKey fen) = some e ∧ e.efen = fen ∧ d ≤ e.depth ∧ s = e.score ∧
        (e.flag = TTFlag.EXACT ∨ (e.flag = TTFlag.LOWER ∧ b ≤ e.score) ∨
          (e.flag = TTFlag.UPPER ∧ e.score ≤ a))) ∧
    (∀ (t : TTMap) (fen : String) (d : ℕ) (s : ℚ) (fl : TTFlag) (bm : Option String),
      ((alGet t (ttKey fen) = none ∨ ∃ e, alGet t (ttKey fen) = some e ∧ e.depth ≤ d) →
        ttSet t fen d s fl bm = alSet t (ttKey fen) ⟨fen, d, s, fl, bm⟩) ∧
      (∀ e, alGet t (ttKey fen) = some e → d < e.depth → ttSet t fen d s fl bm = t)) ∧
    (∀ (t : TTMap) (fen : String) (d : ℕ) (s : ℚ) (bm : Option String) (d' : ℕ),
      (alGet t (ttKey fen) = none ∨ ∃ e, alGet t (ttKey fen) = some e ∧ e.depth ≤ d) →
      d' ≤ d →
      ttGet (ttSet t fen d s TTFlag.EXACT bm) fen d' (-INFINITY) INFINITY = some s) := by
  refine ⟨?_, ?_, ?_⟩
  · intro t fen d a b s h
    unfold ttGet at h
    split at h
    next => exact absurd h (by simp)
    next e he =>
      refine ⟨e, he, ?_⟩
      split at h
      next h1 => exact absurd h (by simp)
      next h1 =>
        push_neg at h1
        refine ⟨h1.1, h1.2, ?_⟩
        split at h
        next h2 => exact ⟨(by injection h with hh; exact hh.symm), Or.inl h2⟩
        next h2 =>
          split at h
          next h3 => exact ⟨(by injection h with hh; exact hh.symm), Or.inr (Or.inl h3)⟩
          next h3 =>
            split at h
            next h4 => exact ⟨(by injection h with hh; exact hh.symm), Or.inr (Or.inr h4)⟩
            next h4 => exact absurd h (by simp)
  · intro t fen d s fl bm
    constructor
    · intro h
      unfold ttSet
      split
      next => rfl
      next e' heq =>
        rcases h with h | ⟨e, he, hd⟩
        · rw [h] at heq
          exact absurd heq (by simp)
        · rw [he] at heq
          injection heq with hh
          subst hh
          rw [if_pos hd]
    · intro e he hd
      unfold ttSet
      split
      next heq =>
        rw [he] at heq
        exact absurd heq (by simp)
      next e' heq =>
        rw [he] at heq
        injection heq with hh
        subst hh
        rw [if_neg (by omega)]
  · intro t fen d s bm d' hw hd'
    have hset : ttSet t fen d s TTFlag.EXACT bm =
        alSet t (ttKey fen) ⟨fen, d, s, TTFlag.EXACT, bm⟩ := by
      unfold ttSet
      split
      next => rfl
      next e' heq =>
        rcases hw with h | ⟨e, he, hdep⟩
        · rw [h] at heq
          exact absurd heq (by simp)
        · rw [he] at heq
          injection heq with hh
          subst hh
          rw [if_pos hdep]
    rw [hset]
    simp only [ttGet, alGet_alSet_self]
    rw [if_neg (by push_neg; exact ⟨rfl, hd'⟩)]
    simp

theorem claim4_witness :
    ttGet (ttSet ([] : TTMap) fenQq 2 5 TTFlag.EXACT none) fenQq 1
      (-INFINITY) INFINITY = some 5 :=
  claim4_tt_contract.2.2 ([] : TTMap) fenQq 2 5 none 1 (Or.inl rfl) (by omega)

/-- C4 counterexample: the two legal positions `fenQq` and `fenRR`
hash to the same slot; after the deeper `fenRR` entry occupies it, a
store for `fenQq` with flag EXACT at depth 1 is skipped, and the
immediate full-window probe of the same signature misses instead of
returning the stored score 7. -/
theorem claim4_counterexample :
    ttKey fenQq = ttKey fenRR ∧ fenQq ≠ fenRR ∧
    ttGet (ttSet (ttSet ([] : TTMap) fenRR 5 0 TTFlag.EXACT none)
        fenQq 1 7 TTFlag.EXACT none)
      fenQq 1 (-INFINITY) INFINITY = none := by
  decide

theorem fulfilledIds_sublist (events : List (String × Option ℕ)) :
    (events.filterMap fun ev => if ev.2.isSome then some ev.1 else none).Sublist
      (events.map Prod.fst) := by
  induction events with
  | nil => simp
  | cons ev rest ih =>
      by_cases h : ev.2.isSome
      · simpa [h] using List.Sublist.cons₂ ev.1 ih
      · simpa [h] using List.Sublist.cons ev.1 ih

theorem runStart_shape (maxPlans : ℕ) :
    ∀ (events : List (String × Option ℕ)) (results : List (String × ℕ)) (tn : ℕ),
    (∀ ev ∈ events, ev.2.isSome = true → alGet results ev.1 = none) →
    (events.filterMap fun ev => if ev.2.isSome then some ev.1 else none).Nodup →
    ∃ front last, runStart maxPlans events results tn = front ++ [last] ∧
      front.length = (events.filter fun ev => ev.2.isSome).length ∧
      (∀ e ∈ front, e.final = false) ∧
      last.final = true ∧
      last.tasks = results.length + (events.filter fun ev => ev.2.isSome).length ∧
      last.total = maxPlans := by
  intro events
  induction events with
  | nil =>
      intro results tn _ _
      exact ⟨[], ⟨tn, results.length, maxPlans, true⟩, rfl, rfl,
        by simp, rfl, by simp, rfl⟩
  | cons ev rest ih =>
      intro results tn hfresh hnd
      cases hcase : ev.2 with
      | none =>
          have hrec := ih results tn
            (fun e he hs => hfresh e (List.mem_cons_of_mem ev he) hs)
            (by simpa [hcase] using hnd)
          obtain ⟨front, last, h1, h2, h3, h4, h5, h6⟩ := hrec
          refine ⟨front, last, ?_, ?_, h3, h4, ?_, h6⟩
          · obtain ⟨i, o⟩ := ev
            simp only at hcase
            subst hcase
            simpa [runStart] using h1
          · simpa [hcase] using h2
          · simpa [hcase] using h5
      | some nds =>
          have hid : alGet results ev.1 = none :=
            hfresh ev (List.mem_cons_self ev rest) (by simp [hcase])
          have hlen : (alSet results ev.1 nds).length = results.length + 1 :=
            alSet_length_of_none results ev.1 nds hid
          have hnd' := hnd
          rw [show (ev :: rest).filterMap
                (fun ev => if ev.2.isSome then some ev.1 else none) =
              ev.1 :: rest.filterMap (fun ev => if ev.2.isSome then some ev.1 else none)
            from by simp [hcase]] at hnd'
          have hfresh' : ∀ e ∈ rest, e.2.isSome = true →
              alGet (alSet results ev.1 nds) e.1 = none := by
            intro e he hs
            have hne : e.1 ≠ ev.1 := by
              intro hh
              exact (List.nodup_cons.mp hnd').1 (by
                rw [← hh]
                exact List.mem_filterMap.mpr ⟨e, he, by simp [hs]⟩)
            rw [alGet_alSet_ne _ _ _ _ hne]
            exact hfresh e (List.mem_cons_of_mem ev he) hs
          have hrec := ih (alSet results ev.1 nds) (tn + nds) hfresh'
            (List.nodup_cons.mp hnd').2
          obtain ⟨front, last, h1, h2, h3, h4, h5, h6⟩ := hrec
          refine ⟨⟨tn + nds, (alSet results ev.1 nds).length, maxPlans, false⟩ :: front,
            last, ?_, ?_, ?_, h4, ?_, h6⟩
          · obtain ⟨i, o⟩ := ev
            simp only at hcase
            subst hcase
            simpa [runStart] using h1
          · simp [hcase, h2]
          · intro e he
            rcases List.mem_cons.mp he with he | he
            · rw [he]
            · exact h3 e he
          · rw [h5, hlen]
            simp [hcase]
            omega

/-- C8 (amended): during one run of the coordinator's `start`, `emit`
is called exactly once per fulfilled task plus exactly once with
`final = true` at the very end, and the final emission's `tasks`
field equals the number of tasks that RESOLVED — not, as the claim
states, the number that settled: rejected tasks are skipped by the
`.catch(() => {})` handler and never enter `_results`
(see the counterexample). -/
theorem claim8_coordinator_emissions (maxPlans : ℕ)
    (events : List (String × Option ℕ)) (hnd : (events.map Prod.fst).Nodup) :
    ∃ front last, runStart maxPlans events [] 0 = front ++ [last] ∧
      front.length = (events.filter fun ev => ev.2.isSome).length ∧
      (∀ e ∈ front, e.final = false) ∧
      last.final = true ∧
      last.tasks = (events.filter fun ev => ev.2.isSome).length ∧
      last.total = maxPlans := by
  have h := runStart_shape maxPlans events [] 0 (by intro ev _ _; rfl)
    (hnd.sublist (fulfilledIds_sublist events))
  simpa using h

theorem claim8_witness :
    ∃ front last, runStart 3 [("a", some 5), ("b", none)] [] 0 = front ++ [last] ∧
      front.length = ([("a", some 5), ("b", (none : Option ℕ))].filter
        fun ev => ev.2.isSome).length ∧
      (∀ e ∈ front, e.final = false) ∧
      last.final = true ∧
      last.tasks = ([("a", some 5), ("b", (none : Option ℕ))].filter
        fun ev => ev.2.isSome).length ∧
      last.total = 3 :=
  claim8_coordinator_emissions 3 [("a", some 5), ("b", none)] (by decide)

/-- C8 counterexample: with a single task that REJECTS, exactly one
task settles, yet the final emission reports `tasks = 0` — the
source counts only resolved tasks (`_results.size`), not settled
ones. -/
theorem claim8_counterexample :
    runStart 5 [("t1", none)] [] 0 = [⟨0, 0, 5, true⟩] ∧
    [("t1", (none : Option ℕ))].length = 1 ∧
    (0 : ℕ) ≠ 1 := by
  refine ⟨rfl, rfl, by decide⟩

theorem ceilDivNat_le (a k : ℕ) (hk : 1 ≤ k) : ceilDivNat a k ≤ a := by
  unfold ceilDivNat
  have h : a + k - 1 ≤ k * a + (k - 1) := by
    cases a with
    | zero => omega
    | succ n =>
        have h2 : n + 1 ≤ k * (n + 1) := Nat.le_mul_of_pos_left _ (by omega)
        omega
  calc (a + k - 1) / k ≤ (k * a + (k - 1)) / k := Nat.div_le_div_right h
    _ ≤ a := by
        rw [Nat.mul_add_div (by omega)]
        have : (k - 1) / k = 0 := Nat.div_eq_of_lt (by omega)
        omega

theorem l2Tasks_length (mD : ℕ) (rmSan : String) :
    ∀ (l : List (MoveV × GTree)) (id : ℕ), (l2Tasks mD rmSan l id).length = l.length := by
  intro l
  induction l with
  | nil => intro id; rfl
  | cons rg rest ih =>
      intro id
      obtain ⟨rp, gchild⟩ := rg
      simp [l2Tasks, ih]

theorem genReplies_spec (mP mD : ℕ) (rmSan : String) :
    ∀ (reps : List (MoveV × GTree)) (tasks : List Task) (id : ℕ),
    tasks.length + reps.length ≤ mP →
    genReplies mP mD rmSan reps tasks id =
      (tasks ++ l2Tasks mD rmSan reps id, id + reps.length) := by
  intro reps
  induction reps with
  | nil => intro tasks id _; simp [genReplies, l2Tasks]
  | cons rg rest ih =>
      intro tasks id hlen
      obtain ⟨rp, gchild⟩ := rg
      rw [genReplies, if_neg (by simp at hlen ⊢; omega)]
      rw [ih _ (id + 1) (by simp at hlen ⊢; omega)]
      simp [l2Tasks, l2TaskOf]
      omega

theorem genGo_spec (mP mD k : ℕ) (hk : 1 ≤ k) :
    ∀ (moves : List (MoveV × GTree)) (tasks : List Task) (id : ℕ),
    genGo mP mD k moves tasks id = tasks ++ planSpecGo mP mD k moves tasks.length id := by
  intro moves
  induction moves with
  | nil => intro tasks id; simp [genGo, planSpecGo]
  | cons mc rest ih =>
      intro tasks id
      obtain ⟨rm, child⟩ := mc
      by_cases hbreak : mP ≤ tasks.length
      · rw [genGo, if_pos hbreak, planSpecGo, if_pos hbreak]
        simp
      · rw [genGo, if_neg hbreak, planSpecGo, if_neg hbreak]
        have hcnt : (child.moves.take (ceilDivNat (mP - (tasks.length + 1)) k)).length ≤
            mP - (tasks.length + 1) := by
          rw [List.length_take]
          exact le_trans (min_le_left _ _) (ceilDivNat_le _ k hk)
        have hrep := genReplies_spec mP mD rm.san
          (child.moves.take (ceilDivNat (mP - (tasks.length + 1)) k))
          (tasks ++ [l1TaskOf mD id rm child]) (id + 1)
          (by simp only [List.length_append, List.length_cons, List.length_nil]; omega)
        simp only [List.length_append, List.length_cons, List.length_nil, zero_add] at hrep
        simp only [List.length_append, List.length_cons, List.length_nil, zero_add]
        rw [hrep]
        simp only []
        rw [ih]
        simp only [List.length_append, List.length_cons, List.length_nil, zero_add,
          l2Tasks_length, List.append_assoc, List.cons_append, List.nil_append]
        have harith : tasks.length +
            ((List.take (ceilDivNat (mP - (tasks.length + 1)) k) child.moves).length + 1) =
            tasks.length + 1 +
            (List.take (ceilDivNat (mP - (tasks.length + 1)) k) child.moves).length := by
          omega
        rw [harith]

/-- C7 (amended): for every input position, `PlanQueue.generate`
emits the root task followed, for each root move in enumeration
order, by that move's `l1` task and then its `l2` tasks — one per
reply in the slice `replies.take(ceil((maxPlans − emitted) / k))` —
stopping once `maxPlans` tasks are emitted.  The claim's count
formula `min(maxPlans, 1 + k + Σreplies)` and its all-`l1`-then-`l2`
ordering are both false on the code (see the counterexample): the
reply slice is truncated by the remaining-budget quotient even when
the total budget would allow more, and `l2` tasks of one root move
precede the next root move's `l1` task. -/
theorem claim7_generator_shape (t : GTree) (mP mD : ℕ) :
    PlanQueue.generate t mP mD = planSpec t mP mD := by
  unfold PlanQueue.generate planSpec
  by_cases hm : t.moves.isEmpty = true
  · simp [hm]
  · have hk : 1 ≤ t.moves.length := by
      cases hmv : t.moves with
      | nil => rw [hmv] at hm; simp at hm
      | cons a l => simp [hmv]
    rw [if_neg hm, if_neg hm, genGo_spec mP mD t.moves.length hk t.moves _ 1]
    simp

/-- C7 counterexample: on the position `k7/8/2K5/8/8/8/8/8 b - - 0 1`
(two root moves, six replies each) with `maxPlans = 15` and
`maxDepth = 3`, the generator emits 12 tasks, not
`min(15, 1 + 2 + 12) = 15`; moreover the `l2` tasks of the first root
move precede the second root move's `l1` task. -/
theorem claim7_counterexample :
    planTree.moves.length = 2 ∧
    (planTree.moves.map fun mt => mt.2.moves.length).sum = 12 ∧
    min 15 (1 + 2 + 12) = 15 ∧
    (PlanQueue.generate planTree 15 3).length = 12 ∧
    (PlanQueue.generate planTree 15 3).length ≠ min 15 (1 + 2 + 12) ∧
    ((PlanQueue.generate planTree 15 3).map Task.taskId) =
      ["root", "l1-1", "l2-2", "l2-3", "l2-4", "l2-5", "l2-6", "l2-7",
       "l1-8", "l2-9", "l2-10", "l2-11"] := by
  decide

theorem aspStepT_eq_specTry (sr : SROracle) (d : ℕ) (prev : ℚ) (obj : ChessObj)
    (st : SearchSt) (hd : 1 ≤ d) :
    aspStepT sr d prev obj st = specTry sr d (specWindows d prev) obj st := by
  by_cases h1 : 1 < d
  · have hne : d ≠ 1 := by omega
    rw [specWindows, if_neg hne]
    rw [aspStepT, if_pos h1]
    cases hc1 : sr d (prev - 50) (prev + 50) obj st with
    | none => simp [specTry, hc1]
    | some r1 =>
        obtain ⟨s, obj1, st1⟩ := r1
        by_cases hf1 : s ≤ prev - 50 ∨ prev + 50 ≤ s
        · cases hc2 : sr d (prev - 150) (prev + 150) obj1 st1 with
          | none => simp [specTry, hc1, hf1, hc2]
          | some r2 =>
              obtain ⟨s2, obj2, st2⟩ := r2
              by_cases hf2 : s2 ≤ prev - 150 ∨ prev + 150 ≤ s2
              · cases hc3 : sr d (-INFINITY) INFINITY obj2 st2 with
                | none => simp [specTry, hc1, hf1, hc2, hf2, hc3]
                | some r3 => simp [specTry, hc1, hf1, hc2, hf2, hc3]
              · simp [specTry, hc1, hf1, hc2, hf2]
        · simp [specTry, hc1, hf1]
  · have he : d = 1 := by omega
    subst he
    rw [specWindows, if_pos rfl]
    rw [aspStepT, if_neg (by omega)]
    cases hc : sr 1 (-INFINITY) INFINITY obj st with
    | none => simp [specTry, hc]
    | some r => simp [specTry, hc]

theorem idGoT_eq_specDeepen (sr : SROracle) :
    ∀ (rem d : ℕ) (score prev : ℚ) (obj : ChessObj) (st : SearchSt), 1 ≤ d →
    idGoT sr rem d score prev obj st = specDeepen sr rem d score prev obj st := by
  intro rem
  induction rem with
  | zero => intro d score prev obj st _; rfl
  | succ n ih =>
      intro d score prev obj st hd
      rw [idGoT, specDeepen, ← aspStepT_eq_specTry sr d prev obj st hd]
      cases hc : aspStepT sr d prev obj st with
      | none => rfl
      | some r =>
          obtain ⟨⟨s, obj1, st1⟩, calls⟩ := r
          by_cases habort : (29000 : ℚ) ≤ |s|
          · simp [habort]
          · simp only [habort, if_false]
            rw [ih (d + 1) s s obj1 st1 (by omega)]

theorem aspStepT_proj (sr : SROracle) (d : ℕ) (prev : ℚ) (obj : ChessObj) (st : SearchSt) :
    (aspStepT sr d prev obj st).map Prod.fst = aspStep sr d prev obj st := by
  by_cases h1 : 1 < d
  · rw [aspStepT, if_pos h1, aspStep, if_pos h1]
    cases hc1 : sr d (prev - 50) (prev + 50) obj st with
    | none => simp [hc1]
    | some r1 =>
        obtain ⟨s, obj1, st1⟩ := r1
        by_cases hf1 : s ≤ prev - 50 ∨ prev + 50 ≤ s
        · cases hc2 : sr d (prev - 150) (prev + 150) obj1 st1 with
          | none => simp [hc1, hf1, hc2]
          | some r2 =>
              obtain ⟨s2, obj2, st2⟩ := r2
              by_cases hf2 : s2 ≤ prev - 150 ∨ prev + 150 ≤ s2
              · cases hc3 : sr d (-INFINITY) INFINITY obj2 st2 with
                | none => simp [hc1, hf1, hc2, hf2, hc3]
                | some r3 => simp [hc1, hf1, hc2, hf2, hc3]
              · simp [hc1, hf1, hc2, hf2]
        · simp [hc1, hf1]
  · rw [aspStepT, if_neg h1, aspStep, if_neg h1]
    cases hc : sr d (-INFINITY) INFINITY obj st with
    | none => simp [hc]
    | some r => simp [hc]

theorem idGoT_proj (sr : SROracle) :
    ∀ (rem d : ℕ) (score prev : ℚ) (obj : ChessObj) (st : SearchSt),
    (idGoT sr rem d score prev obj st).map Prod.fst = idGo sr rem d score prev obj st := by
  intro rem
  induction rem with
  | zero => intro d score prev obj st; rfl
  | succ n ih =>
      intro d score prev obj st
      rw [idGoT, idGo, ← aspStepT_proj sr d prev obj st]
      cases hc : aspStepT sr d prev obj st with
      | none => rfl
      | some r =>
          obtain ⟨⟨s, obj1, st1⟩, calls⟩ := r
          by_cases habort : (29000 : ℚ) ≤ |s|
          · simp [habort]
          · simp only [Option.map, habort, if_false]
            rw [← ih (d + 1) s s obj1 st1]
            cases hr : idGoT sr n (d + 1) s s obj1 st1 with
            | none => rfl
            | some r2 => rfl

/-- C5: for every root move (equivalently, for every search oracle in
place of `alphaBeta(child, d−1, ·, ·)`), the iterative-deepening loop
behaves exactly as specified: iteration `d = 1` searches the full
window `(−INFINITY, INFINITY)`; every iteration `d ≥ 2` first
searches `[prev−50, prev+50]`, on a fail-low or fail-high re-searches
`[prev−150, prev+150]`, then falls back to the full window; and the
loop aborts as soon as the iteration's returned score satisfies
`|score| ≥ 29000`.  The first conjunct equates the traced loop with
the window cascade written from the specification's words
(`specWindows`/`specTry`/`specDeepen`); the second ties the traced
loop to the untraced `idGo` that `searchRoot` runs. -/
theorem claim5_aspiration_windows (sr : SROracle) (depth : ℕ) (obj : ChessObj)
    (st : SearchSt) :
    idGoT sr depth 1 0 0 obj st = specDeepen sr depth 1 0 0 obj st ∧
    (idGoT sr depth 1 0 0 obj st).map Prod.fst = idGo sr depth 1 0 0 obj st :=
  ⟨idGoT_eq_specDeepen sr depth 1 0 0 obj st (by omega),
   idGoT_proj sr depth 1 0 0 obj st⟩

theorem scrub_check (t : GTree) : (GTree.scrubMob t).check = t.check := by
  cases t; rfl

theorem scrub_moves (t : GTree) : (GTree.scrubMob t).moves = scrubMobL t.moves := by
  cases t; rfl

theorem scrub_ep (t : GTree) : (GTree.scrubMob t).ep = epScrubMob t.ep := by
  cases t; rfl

theorem scrubMobL_isEmpty (l : List (MoveV × GTree)) :
    (scrubMobL l).isEmpty = l.isEmpty := by
  cases l with
  | nil => rfl
  | cons a r => obtain ⟨m, t⟩ := a; rfl

theorem evaluate_scrub (ep : EvalPos) :
    evaluate (epScrubMob ep) true = evaluate ep true := rfl

theorem objMove_scrub (o : ChessObj) (c : GTree) :
    objMove (objScrub o) (GTree.scrubMob c) = objScrub (objMove o c) := rfl

theorem objUndo_scrub (o : ChessObj) : objUndo (objScrub o) = objScrub (objUndo o) := by
  obtain ⟨cur, stack⟩ := o
  cases stack with
  | nil => rfl
  | cons h t => rfl

theorem insertRanked_scrub (m : MoveV) (t : GTree) :
    ∀ l : List (MoveV × GTree),
    insertRanked (fun mt => qVal mt.1) (m, GTree.scrubMob t) (scrubMobL l) =
    scrubMobL (insertRanked (fun mt => qVal mt.1) (m, t) l) := by
  intro l
  induction l with
  | nil => rfl
  | cons y ys ih =>
      obtain ⟨ym, yt⟩ := y
      by_cases h : qVal m < qVal ym
      · simp [scrubMobL, insertRanked, h, ih]
      · simp [scrubMobL, insertRanked, h]

theorem sortRanked_scrub :
    ∀ l : List (MoveV × GTree),
    sortRanked (fun mt => qVal mt.1) (scrubMobL l) =
    scrubMobL (sortRanked (fun mt => qVal mt.1) l) := by
  intro l
  induction l with
  | nil => rfl
  | cons x xs ih =>
      obtain ⟨m, t⟩ := x
      rw [scrubMobL, sortRanked, sortRanked, ih, insertRanked_scrub]

theorem filterCaps_scrub :
    ∀ l : List (MoveV × GTree),
    (scrubMobL l).filter (fun mt => decide (mt.1.captured ≠ none ∨ mt.1.promotion ≠ none)) =
    scrubMobL (l.filter fun mt => decide (mt.1.captured ≠ none ∨ mt.1.promotion ≠ none)) := by
  intro l
  induction l with
  | nil => rfl
  | cons x xs ih =>
      obtain ⟨m, t⟩ := x
      rw [scrubMobL, List.filter_cons, List.filter_cons]
      by_cases h : (m.captured ≠ none ∨ m.promotion ≠ none)
      · rw [if_pos (decide_eq_true h), if_pos (decide_eq_true h), ih, scrubMobL]
      · rw [if_neg (by simpa using h), if_neg (by simpa using h), ih]

theorem qLoop_cons (self : ChessObj → ℚ → ℚ → Bool → SearchSt →
      Option (ℚ × ChessObj × SearchSt)) (stand : Option ℚ) (mv : MoveV)
    (child : GTree) (rest : List (MoveV × GTree)) (alpha beta : ℚ)
    (maximizing : Bool) (obj : ChessObj) (st : SearchSt) :
    qLoop self stand ((mv, child) :: rest) alpha beta maximizing obj st =
      if (match stand, mv.captured with
          | some s, some c =>
              if maximizing then decide (s + PIECE_VALUE c + 200 < alpha)
              else decide (beta < s - PIECE_VALUE c - 200)
          | _, _ => false) then qLoop self stand rest alpha beta maximizing obj st
      else
        match self (objMove obj child) alpha beta (!maximizing) st with
        | none => none
        | some (score, obj1, st1) =>
            let obj2 := objUndo obj1
            if maximizing then
              let alpha' := if alpha < score then score else alpha
              if beta ≤ alpha' then some (alpha', obj2, st1)
              else qLoop self stand rest alpha' beta maximizing obj2 st1
            else
              let beta' := if score < beta then score else beta
              if beta' ≤ alpha then some (beta', obj2, st1)
              else qLoop self stand rest alpha beta' maximizing obj2 st1 := rfl

theorem qLoop_scrub (self : ChessObj → ℚ → ℚ → Bool → SearchSt →
      Option (ℚ × ChessObj × SearchSt)) (stand : Option ℚ)
    (hself : ∀ obj alpha beta maxi st, self (objScrub obj) alpha beta maxi st =
      (self obj alpha beta maxi st).map fun r => (r.1, objScrub r.2.1, r.2.2)) :
    ∀ (moves : List (MoveV × GTree)) (alpha beta : ℚ) (maxi : Bool)
      (obj : ChessObj) (st : SearchSt),
    qLoop self stand (scrubMobL moves) alpha beta maxi (objScrub obj) st =
    (qLoop self stand moves alpha beta maxi obj st).map
      fun r => (r.1, objScrub r.2.1, r.2.2) := by
  intro moves
  induction moves with
  | nil => intro alpha beta maxi obj st; rfl
  | cons x rest ih =>
      obtain ⟨mv, child⟩ := x
      intro alpha beta maxi obj st
      rw [scrubMobL, qLoop_cons, qLoop_cons]
      split
      next hmx =>
        split
        next hsk => exact ih alpha beta maxi obj st
        next hsk =>
          rw [objMove_scrub, hself]
          cases hres : self (objMove obj child) alpha beta (!maxi) st with
          | none => rfl
          | some r =>
              obtain ⟨score, obj1, st1⟩ := r
              by_cases hcut : beta ≤ (if alpha < score then score else alpha)
              · simp [objUndo_scrub, hcut]
              · simp only [Option.map, hcut, if_false]
                rw [objUndo_scrub]
                exact ih _ beta maxi (objUndo obj1) st1
      next hmx =>
        split
        next hsk => exact ih alpha beta maxi obj st
        next hsk =>
          rw [objMove_scrub, hself]
          cases hres : self (objMove obj child) alpha beta (!maxi) st with
          | none => rfl
          | some r =>
              obtain ⟨score, obj1, st1⟩ := r
              by_cases hcut : (if score < beta then score else beta) ≤ alpha
              · simp [objUndo_scrub, hcut]
              · simp only [Option.map, hcut, if_false]
                rw [objUndo_scrub]
                exact ih alpha _ maxi (objUndo obj1) st1

theorem quiescence_scrub :
    ∀ (fuel : ℕ) (obj : ChessObj) (alpha beta : ℚ) (maxi : Bool) (st : SearchSt),
    quiescence fuel (objScrub obj) alpha beta maxi st =
    (quiescence fuel obj alpha beta maxi st).map
      fun r => (r.1, objScrub r.2.1, r.2.2) := by
  intro fuel
  induction fuel with
  | zero => intro obj alpha beta maxi st; rfl
  | succ n ih =>
      intro obj alpha beta maxi st
      rw [quiescence, quiescence]
      have hcur : (objScrub obj).cur = GTree.scrubMob obj.cur := rfl
      rw [hcur, scrub_check, scrub_moves, scrub_ep]
      dsimp only
      rw [scrubMobL_isEmpty, evaluate_scrub]
      cases hchk : obj.cur.check with
      | true =>
          rw [if_pos rfl, if_pos rfl]
          cases hemp : obj.cur.moves.isEmpty with
          | true =>
              rw [if_pos rfl, if_pos rfl]
              rfl
          | false =>
              rw [if_neg (by simp), if_neg (by simp)]
              rw [sortRanked_scrub]
              exact qLoop_scrub (quiescence n) none ih
                (sortRanked (fun mt => qVal mt.1) obj.cur.moves) alpha beta maxi
                obj { st with nodes := st.nodes + 1 }
      | false =>
          cases maxi with
          | true =>
              simp only [Bool.false_eq_true, if_false, eq_self_iff_true, if_true]
              by_cases hsp : beta ≤ evaluate obj.cur.ep true
              · rw [if_pos hsp, if_pos hsp]
                rfl
              · rw [if_neg hsp, if_neg hsp]
                rw [filterCaps_scrub, sortRanked_scrub]
                exact qLoop_scrub (quiescence n) (some (evaluate obj.cur.ep true)) ih
                  (sortRanked (fun mt => qVal mt.1) (obj.cur.moves.filter fun mt =>
                    decide (mt.1.captured ≠ none ∨ mt.1.promotion ≠ none)))
                  _ beta true obj { st with nodes := st.nodes + 1 }
          | false =>
              simp only [Bool.false_eq_true, if_false, eq_self_iff_true, if_true]
              by_cases hsp : evaluate obj.cur.ep true ≤ alpha
              · rw [if_pos hsp, if_pos hsp]
                rfl
              · rw [if_neg hsp, if_neg hsp]
                rw [filterCaps_scrub, sortRanked_scrub]
                exact qLoop_scrub (quiescence n) (some (evaluate obj.cur.ep true)) ih
                  (sortRanked (fun mt => qVal mt.1) (obj.cur.moves.filter fun mt =>
                    decide (mt.1.captured ≠ none ∨ mt.1.promotion ≠ none)))
                  alpha _ false obj { st with nodes := st.nodes + 1 }

/-- C6: quiescence when in check searches every legal move (the full
evasion list, sorted by the capture/promotion value, with no
stand-pat score and hence no stand-pat cutoff or delta pruning), and
with an empty legal-move list returns −30000 for the maximizing side
and +30000 for the minimizing side; and the mobility term of the
evaluator is never computed anywhere inside quiescence: zeroing the
mobility oracle fields of every position in the game tree
(`objScrub`) leaves every quiescence result unchanged, because the
stand-pat call is `evaluate(chess, true)` with the
mobility-suppression flag set. -/
theorem claim6_quiescence (fuel : ℕ) (obj : ChessObj) (alpha beta : ℚ)
    (maxi : Bool) (st : SearchSt) :
    (obj.cur.check = true →
      quiescence (fuel + 1) obj alpha beta maxi st =
        if obj.cur.moves.isEmpty then
          some ((if maxi then (-30000 : ℚ) else 30000), obj,
            { st with nodes := st.nodes + 1 })
        else
          qLoop (quiescence fuel) none
            (sortRanked (fun mt => qVal mt.1) obj.cur.moves) alpha beta maxi obj
            { st with nodes := st.nodes + 1 }) ∧
    quiescence fuel (objScrub obj) alpha beta maxi st =
      (quiescence fuel obj alpha beta maxi st).map
        fun r => (r.1, objScrub r.2.1, r.2.2) := by
  constructor
  · intro hchk
    rw [quiescence, hchk, if_pos rfl]
  · exact quiescence_scrub fuel obj alpha beta maxi st

theorem claim6_witness :
    ((⟨g2Child, []⟩ : ChessObj).cur.check = true) ∧
    quiescence 1 ⟨g2Child, []⟩ 0 1 true initSt =
      some ((-30000 : ℚ), ⟨g2Child, []⟩, { initSt with nodes := 1 }) := by
  have h := (claim6_quiescence 0 ⟨g2Child, []⟩ 0 1 true initSt).1 (by decide)
  refine ⟨by decide, ?_⟩
  rw [h]
  rfl

theorem objUndo_objMove (o : ChessObj) (c : GTree) : objUndo (objMove o c) = o := rfl

theorem qLoop_preserves (self : ChessObj → ℚ → ℚ → Bool → SearchSt →
      Option (ℚ × ChessObj × SearchSt)) (stand : Option ℚ)
    (hself : ∀ obj alpha beta maxi st r, self obj alpha beta maxi st = some r →
      r.2.1 = obj) :
    ∀ (moves : List (MoveV × GTree)) (alpha beta : ℚ) (maxi : Bool)
      (obj : ChessObj) (st : SearchSt) (r : ℚ × ChessObj × SearchSt),
    qLoop self stand moves alpha beta maxi obj st = some r → r.2.1 = obj := by
  intro moves
  induction moves with
  | nil =>
      intro alpha beta maxi obj st r h
      rw [qLoop] at h
      cases h
      rfl
  | cons x rest ih =>
      obtain ⟨mv, child⟩ := x
      intro alpha beta maxi obj st r h
      rw [qLoop_cons] at h
      cases hs : self (objMove obj child) alpha beta (!maxi) st with
      | none =>
          rw [hs] at h
          repeat' split at h
          all_goals first
            | exact ih _ _ _ _ _ _ h
            | (cases h; rfl)
            | contradiction
            | simp at h
      | some res =>
          obtain ⟨score, obj1, st1⟩ := res
          rw [hs] at h
          have hob : obj1 = objMove obj child := hself _ _ _ _ _ _ hs
          dsimp only at h
          rw [hob, objUndo_objMove] at h
          repeat' split at h
          all_goals first
            | exact ih _ _ _ _ _ _ h
            | (cases h; rfl)
            | contradiction

theorem quiescence_preserves :
    ∀ (fuel : ℕ) (obj : ChessObj) (alpha beta : ℚ) (maxi : Bool) (st : SearchSt)
      (r : ℚ × ChessObj × SearchSt),
    quiescence fuel obj alpha beta maxi st = some r → r.2.1 = obj := by
  intro fuel
  induction fuel with
  | zero => intro obj alpha beta maxi st r h; simp [quiescence] at h
  | succ n ih =>
      intro obj alpha beta maxi st r h
      rw [quiescence] at h
      dsimp only at h
      split at h
      · split at h
        · cases h; rfl
        · exact qLoop_preserves (quiescence n) none ih _ _ _ _ _ _ _ h
      · split at h
        · split at h
          · cases h; rfl
          · exact qLoop_preserves (quiescence n)
              (some (evaluate obj.cur.ep true)) ih _ _ _ _ _ _ _ h
        · split at h
          · cases h; rfl
          · exact qLoop_preserves (quiescence n)
              (some (evaluate obj.cur.ep true)) ih _ _ _ _ _ _ _ h

theorem searched_preserves (self : ChessObj → ℕ → ℚ → ℚ → Bool → ℕ → SearchSt →
      Option (ℚ × ChessObj × SearchSt))
    (hself : ∀ obj d a b m p st r, self obj d a b m p st = some r → r.2.1 = obj)
    (sf : Bool) (mi depth ply : ℕ) (alpha beta : ℚ) (maximizing : Bool)
    (inCheckNow : Bool) (mv : MoveV) (child : GTree) (obj : ChessObj)
    (st : SearchSt) (s : ℚ) (o2 : ChessObj) (st2 : SearchSt) :
    (if ¬sf then
        self (objMove obj child) (depth - 1) alpha beta (!maximizing) (ply + 1) st
      else if 2 ≤ mi ∧ 3 ≤ depth ∧
          (decide (mv.captured = none ∧ mv.promotion = none) : Bool) ∧
          ¬child.check ∧ ¬inCheckNow then
        let r := min (depth - 1) (lmrAt (min 31 depth) (min 63 mi))
        let reducedDepth := depth - 1 - r
        let nullLo := if maximizing then alpha else beta - 1
        let nullHi := if maximizing then alpha + 1 else beta
        match self (objMove obj child) reducedDepth nullLo nullHi (!maximizing)
            (ply + 1) st with
        | none => none
        | some (s1, o1, st1) =>
            if alpha < s1 ∧ s1 < beta then
              self o1 (depth - 1) alpha beta (!maximizing) (ply + 1) st1
            else some (s1, o1, st1)
      else
        let nullLo := if maximizing then alpha else beta - 1
        let nullHi := if maximizing then alpha + 1 else beta
        match self (objMove obj child) (depth - 1) nullLo nullHi (!maximizing)
            (ply + 1) st with
        | none => none
        | some (s1, o1, st1) =>
            if alpha < s1 ∧ s1 < beta then
              self o1 (depth - 1) alpha beta (!maximizing) (ply + 1) st1
            else some (s1, o1, st1)) = some (s, o2, st2) →
    o2 = objMove obj child := by
  intro h
  split at h
  · exact hself _ _ _ _ _ _ _ _ h
  · split at h
    · dsimp only at h
      split at h
      next => exact Option.noConfusion h
      next s1 o1 st1 heq2 =>
        split at h
        · have h1 : o1 = objMove obj child := hself _ _ _ _ _ _ _ _ heq2
          have h2 : o2 = o1 := hself _ _ _ _ _ _ _ _ h
          rw [h2, h1]
        · cases h
          exact hself _ _ _ _ _ _ _ _ heq2
    · dsimp only at h
      split at h
      next => exact Option.noConfusion h
      next s1 o1 st1 heq2 =>
        split at h
        · have h1 : o1 = objMove obj child := hself _ _ _ _ _ _ _ _ heq2
          have h2 : o2 = o1 := hself _ _ _ _ _ _ _ _ h
          rw [h2, h1]
        · cases h
          exact hself _ _ _ _ _ _ _ _ heq2

theorem abLoop_preserves (self : ChessObj → ℕ → ℚ → ℚ → Bool → ℕ → SearchSt →
      Option (ℚ × ChessObj × SearchSt))
    (depth : ℕ) (maximizing : Bool) (ply : ℕ) (inCheckNow : Bool)
    (staticEval : Option ℚ) (prevMoveKey : Option String)
    (hself : ∀ obj d a b m p st r, self obj d a b m p st = some r → r.2.1 = obj) :
    ∀ (moves : List (MoveV × GTree)) (mi : ℕ) (alpha beta best : ℚ)
      (bm : Option String) (sf : Bool) (qs : ℕ) (obj : ChessObj) (st : SearchSt)
      (out : ABOut),
    abLoop self depth maximizing ply inCheckNow staticEval prevMoveKey moves mi
      alpha beta best bm sf qs obj st = some out → out.obj = obj := by
  intro moves
  induction moves with
  | nil =>
      intro mi alpha beta best bm sf qs obj st out h
      rw [abLoop] at h
      cases h
      rfl
  | cons x rest ih =>
      obtain ⟨mv, child⟩ := x
      intro mi alpha beta best bm sf qs obj st out h
      rw [abLoop.eq_def] at h
      cases maximizing with
      | true =>
          dsimp only at h
          simp only [eq_self_iff_true, if_true] at h
          repeat' split at h
          all_goals
            first
            | exact ih _ _ _ _ _ _ _ _ _ _ h
            | (rw [ih _ _ _ _ _ _ _ _ _ _ h]
               have hx := searched_preserves self hself _ _ _ _ _ _ true _ _ _ _ _
                 _ _ _ (by assumption)
               rw [hx]
               rfl)
            | (cases h
               have hx := searched_preserves self hself _ _ _ _ _ _ true _ _ _ _ _
                 _ _ _ (by assumption)
               rw [hx]
               rfl)
            | contradiction
      | false =>
          dsimp only at h
          simp only [Bool.false_eq_true, if_false] at h
          repeat' split at h
          all_goals
            first
            | exact ih _ _ _ _ _ _ _ _ _ _ h
            | (rw [ih _ _ _ _ _ _ _ _ _ _ h]
               have hx := searched_preserves self hself _ _ _ _ _ _ false _ _ _ _ _
                 _ _ _ (by assumption)
               rw [hx]
               rfl)
            | (cases h
               have hx := searched_preserves self hself _ _ _ _ _ _ false _ _ _ _ _
                 _ _ _ (by assumption)
               rw [hx]
               rfl)
            | contradiction

theorem alphaBeta_preserves :
    ∀ (fuel : ℕ) (obj : ChessObj) (depth : ℕ) (alpha beta : ℚ) (maxi : Bool)
      (ply : ℕ) (st : SearchSt) (r : ℚ × ChessObj × SearchSt),
    alphaBeta fuel obj depth alpha beta maxi ply st = some r → r.2.1 = obj := by
  intro fuel
  induction fuel with
  | zero => intro obj depth alpha beta maxi ply st r h; simp [alphaBeta] at h
  | succ n ih =>
      intro obj depth alpha beta maxi ply st r h
      rw [alphaBeta] at h
      dsimp only at h
      split at h
      · cases h; rfl
      · split at h
        next => cases h; rfl
        next =>
          split at h
          · exact quiescence_preserves n _ _ _ _ _ _ h
          · split at h
            · cases h; rfl
            · split at h
              · cases h; rfl
              · split at h
                next => exact Option.noConfusion h
                next v stA heqN => cases h; rfl
                next stA heqN =>
                  split at h
                  next => exact Option.noConfusion h
                  next rz heqR =>
                    have hrz : rz.2.1 = obj := by
                      clear h
                      repeat' split at heqR
                      all_goals first
                        | (simp at heqR
                           done)
                        | (cases heqR; rfl)
                        | (cases heqR
                           exact quiescence_preserves n _ _ _ _ _ _ (by assumption))
                        | (simp only [Option.some.injEq] at heqR
                           cases heqR
                           exact quiescence_preserves n _ _ _ _ _ _ (by assumption))
                    cases h
                    exact hrz
                  next objR stR heqR =>
                    have hor : objR = obj := by
                      clear h
                      repeat' split at heqR
                      all_goals first
                        | (simp at heqR
                           done)
                        | (cases heqR; rfl)
                        | (cases heqR
                           exact quiescence_preserves n _ _ _ _ _ _ (by assumption))
                        | (simp only [Option.some.injEq] at heqR
                           cases heqR
                           exact quiescence_preserves n _ _ _ _ _ _ (by assumption))
                    subst hor
                    split at h
                    next => exact Option.noConfusion h
                    next out heqL =>
                      cases h
                      exact abLoop_preserves (alphaBeta n) _ _ _ _ _ _ ih _ _ _ _ _ _ _ _ _ _ _ heqL

theorem aspStep_preserves (sr : SROracle)
    (hsr : ∀ d lo hi obj st r, sr d lo hi obj st = some r → r.2.1 = obj) :
    ∀ (d : ℕ) (prev : ℚ) (obj : ChessObj) (st : SearchSt)
      (r : ℚ × ChessObj × SearchSt),
    aspStep sr d prev obj st = some r → r.2.1 = obj := by
  intro d prev obj st r h
  rw [aspStep] at h
  split at h
  · dsimp only at h
    split at h
    next => exact Option.noConfusion h
    next s obj1 st1 heq =>
      split at h
      · split at h
        next => exact Option.noConfusion h
        next s2 obj2 st2 heq2 =>
          split at h
          · exact (hsr _ _ _ _ _ _ h).trans
              ((hsr _ _ _ _ _ _ heq2).trans (hsr _ _ _ _ _ _ heq))
          · cases h
            exact (hsr _ _ _ _ _ _ heq2).trans (hsr _ _ _ _ _ _ heq)
      · cases h
        exact hsr _ _ _ _ _ _ heq
  · exact hsr _ _ _ _ _ _ h

theorem idGo_preserves (sr : SROracle)
    (hsr : ∀ d lo hi obj st r, sr d lo hi obj st = some r → r.2.1 = obj) :
    ∀ (rem d : ℕ) (score prev : ℚ) (obj : ChessObj) (st : SearchSt)
      (r : ℚ × ChessObj × SearchSt),
    idGo sr rem d score prev obj st = some r → r.2.1 = obj := by
  intro rem
  induction rem with
  | zero =>
      intro d score prev obj st r h
      rw [idGo] at h
      cases h
      rfl
  | succ n ih =>
      intro d score prev obj st r h
      rw [idGo] at h
      split at h
      next => exact Option.noConfusion h
      next s obj1 st1 heq =>
        split at h
        · cases h
          exact aspStep_preserves sr hsr _ _ _ _ _ heq
        · exact (ih _ _ _ _ _ _ h).trans (aspStep_preserves sr hsr _ _ _ _ _ heq)

theorem srLoop_preserves (fuel : ℕ) (maxB : Bool) (depth : ℕ) :
    ∀ (moves : List (MoveV × GTree)) (results : List RLine) (obj : ChessObj)
      (st : SearchSt) (r : List RLine × ChessObj × SearchSt),
    srLoop fuel maxB depth moves results obj st = some r → r.2.1 = obj := by
  intro moves
  induction moves with
  | nil =>
      intro results obj st r h
      rw [srLoop] at h
      cases h
      rfl
  | cons x rest ih =>
      obtain ⟨mv, child⟩ := x
      intro results obj st r h
      rw [srLoop] at h
      dsimp only at h
      split at h
      next => exact Option.noConfusion h
      next score obj2 st2 heq =>
        have hobj2 : obj2 = objMove obj child :=
          idGo_preserves _ (fun d lo hi o s r' h' =>
            alphaBeta_preserves fuel o (d - 1) lo hi (!maxB) 0 s r' h')
            _ _ _ _ _ _ _ heq
        rw [hobj2, objUndo_objMove] at h
        exact ih _ _ _ _ h

/-- C9: for every input game tree, fuel, depth and multiPV, whenever
`searchRoot` returns, the position object it finishes with is exactly
the one it was constructed from: the current FEN equals the input
FEN and the undo stack is empty — every `move` performed by the root
driver, the alpha-beta recursion and quiescence has been undone in
LIFO order (the null-move search uses a separate object and cannot
touch this one). -/
theorem claim9_make_unmake (fuel : ℕ) (t : GTree) (depth multiPV : ℕ)
    (st0 : SearchSt) (r : List RLine × ChessObj × SearchSt)
    (h : searchRoot fuel t depth multiPV st0 = some r) :
    r.2.1.cur.fen = t.fen ∧ r.2.1.undoStack = [] := by
  rw [searchRoot] at h
  split at h
  · cases h
    exact ⟨rfl, rfl⟩
  · split at h
    next => exact Option.noConfusion h
    next results obj2 st2 heq =>
      cases h
      have hobj : obj2 = ⟨t, []⟩ := srLoop_preserves fuel _ depth _ _ _ _ _ heq
      rw [hobj]
      exact ⟨rfl, rfl⟩

theorem claim9_witness :
    ((searchRoot 10 cexTree 1 1 initSt).map
        fun r => (decide (r.2.1.cur.fen = cexTree.fen),
                  r.2.1.undoStack.isEmpty)) = some (true, true) := by
  cases H : searchRoot 10 cexTree 1 1 initSt with
  | none =>
      have hs : (searchRoot 10 cexTree 1 1 initSt).isSome = true := by decide
      rw [H] at hs
      exact Bool.noConfusion hs
  | some r =>
      have hp := claim9_make_unmake 10 cexTree 1 1 initSt r H
      simp [hp.1, hp.2]

theorem srLoop_eq_flip_raw (fuel : ℕ) (maxB : Bool) (depth : ℕ) :
    ∀ (moves : List (MoveV × GTree)) (results : List RLine) (obj : ChessObj)
      (st : SearchSt),
    srLoop fuel maxB depth moves (results.map (flipLine maxB)) obj st =
    (srLoopRaw fuel maxB depth moves results obj st).map
      fun r => (r.1.map (flipLine maxB), r.2) := by
  intro moves
  induction moves with
  | nil => intro results obj st; rfl
  | cons x rest ih =>
      obtain ⟨mv, child⟩ := x
      intro results obj st
      rw [srLoop, srLoopRaw]
      dsimp only
      cases hI : idGo (fun d lo hi o s => alphaBeta fuel o (d - 1) lo hi (!maxB) 0 s)
          depth 1 0 0 (objMove obj child) st with
      | none => rfl
      | some res =>
          obtain ⟨score, obj2, st2⟩ := res
          dsimp only
          rw [show ([(⟨mv, if maxB then score else -score⟩ : RLine)]) =
              List.map (flipLine maxB) [⟨mv, score⟩] from rfl, ← List.map_append]
          exact ih (results ++ [⟨mv, score⟩]) (objUndo obj2) st2

/-- C2 (amended): the scores searchRoot returns are from the root
side's perspective, not white-positive: the root driver records
`max ? score : -score`, so the emitted lines are exactly the raw
driver's lines (whose scores are the white-positive minimax values
that `alphaBeta` propagates from `evaluate`) with the sign flipped
when the root side to move is black, then sorted descending and
truncated to multiPV. -/
theorem claim2_root_perspective (fuel : ℕ) (t : GTree) (depth multiPV : ℕ)
    (st0 : SearchSt) :
    searchRoot fuel t depth multiPV st0 =
      (let maxB : Bool := decide (t.ep.turn = PColor.w)
       let st : SearchSt := { st0 with nodes := 0, killers := [], moveStack := [], hist := gravityHist st0.hist }
       if t.moves.isEmpty then some ([], ⟨t, []⟩, st)
       else
         (srLoopRaw fuel maxB depth t.moves [] ⟨t, []⟩ st).map fun r =>
           ((sortRanked (fun l => l.score)
               (r.1.map (flipLine maxB))).take multiPV, r.2)) := by
  rw [searchRoot]
  dsimp only
  split
  · rfl
  · have hl := srLoop_eq_flip_raw fuel (decide (t.ep.turn = PColor.w)) depth
      t.moves [] ⟨t, []⟩
      { st0 with nodes := 0, killers := [], moveStack := [], hist := gravityHist st0.hist }
    simp only [List.map_nil] at hl
    rw [hl]
    cases hR : srLoopRaw fuel (decide (t.ep.turn = PColor.w)) depth t.moves []
        ⟨t, []⟩
        { st0 with nodes := 0, killers := [], moveStack := [], hist := gravityHist st0.hist } with
    | none => rfl
    | some r => rfl

/-- C2 counterexample: from the root position
`8/8/8/8/8/6pk/5p2/7K b - - 0 1` (black to move), the depth-1 search
returns the single line `{move: g2#, score: +30000}`; the position
after that move is a white-to-move checkmate, so its white-positive
value (the evaluator's own terminal score) is −30000 — the returned
score is black-positive, refuting the claim that every line score is
white-positive. -/
theorem claim2_counterexample :
    ((searchRoot 10 cexTree 1 1 initSt).map fun r => r.1) =
        some [⟨mvG2, 30000⟩] ∧
    cexTree.ep.turn = PColor.b ∧
    g2Child.ep.inCheckmate = true ∧ g2Child.ep.turn = PColor.w ∧
    evaluate g2Child.ep false = -30000 :=
  ⟨by decide, by decide, by decide, by decide, by decide⟩

/-- C3: the claimed color-mirror antisymmetry `evaluate(P) =
−evaluate(P')` fails on the program as written.  `P3m` is exactly the
color-mirror of `P3` (`7k/8/8/8/Q7/8/8/7K w`: colors swapped, board
flipped vertically, side to move swapped), yet `evaluate` gives 920
versus −915: the black branch of `sqIdx` is `(rank−1)·8 + (7−f)` — a
180° rotation rather than the vertical mirror — and the queen's
piece-square table is not left-right symmetric, so mirrored queens
read different table cells (`PST_Q[32] = 0` against `PST_Q[39] =
−5`); `Math.round`'s asymmetry at negative half-integers shifts the
tropism term as well. -/
theorem claim3_mirror_asymmetry :
    P3m = colorMirror P3 ∧
    evaluate P3 false = 920 ∧
    evaluate P3m false = -915 ∧
    evaluate P3 false + evaluate P3m false ≠ 0 :=
  ⟨by decide, by decide, by decide, by decide⟩

end Engine
